import Mathlib

/-! # Verification of the agentbrowser learning memory store and task executor

A shallow embedding, in Lean 4, of the core of the `agentbrowser`
repository: the `SiteMemoryStore` (src/memory/store.ts) and the
`TaskExecutor` (runtime executor, same combined source file), together
with the small part of the `SemanticAnalyzer` (buildModel) that ingests
translator output.

Modelling conventions:
* SQLite tables become Lean lists of row structures; SQL upserts become
  list upserts that update in place or append (rowid order = list order).
* `Date.now()` becomes an explicit integer time passed in or carried in
  the state; the REAL division in `getBestSelector` becomes division in ℚ.
* `JSON.stringify`/`JSON.parse` round-tripping of stored page models is
  modelled as the identity (models are stored as values).
* The page driver (BrowserEngine) and the translator (SemanticAnalyzer's
  LLM call) are external collaborators; their responses are modelled as
  scripted queues consumed in call order, with driver operations that can
  fail returning `Except String`.
* The WHATWG `new URL(...)` constructor used by `normalizeUrl`/`getDomain`
  is platform code, not repository code; `parseUrl` below models the
  fragment of the WHATWG URL standard relevant to the claims (scheme
  detection, authority/host/port splitting, opaque paths, query
  stripping).  Percent-encoding, dot-segment normalization, IDNA and
  whitespace stripping are omitted; they play no role in any claim.
-/

/-- TypeScript `PageType` union from src/types.ts. -/
inductive PageType where
  | login | signup | dashboard | search | product | checkout | cart
  | form | article | listing | profile | settings | error | captcha | unknown
deriving DecidableEq, Repr

/-- The string each `PageType` value serializes to (the TS union is a union
of string literals; template interpolation uses these strings). -/
def PageType.toStr : PageType → String
  | .login => "login"
  | .signup => "signup"
  | .dashboard => "dashboard"
  | .search => "search"
  | .product => "product"
  | .checkout => "checkout"
  | .cart => "cart"
  | .form => "form"
  | .article => "article"
  | .listing => "listing"
  | .profile => "profile"
  | .settings => "settings"
  | .error => "error"
  | .captcha => "captcha"
  | .unknown => "unknown"

/-- `ActionInternal.type` from src/types.ts. -/
inductive InternalType where
  | click | fill | form | select | navigate | scroll | custom
deriving DecidableEq, Repr

/-- `ActionInternal` from src/types.ts: the execution hint attached to an
action.  `Record<string, string>` becomes an association list. -/
structure ActionInternal where
  type : InternalType
  selector : Option String
  field_map : Option (List (String × String))
  submit_selector : Option String
deriving DecidableEq, Repr

/-- `ParameterDefinition.type` from src/types.ts. -/
inductive ParamType where
  | string | number | boolean | object | array
deriving DecidableEq, Repr

/-- `ParameterDefinition` from src/types.ts (the optional `example` payload
is modelled as a string, its only use being opaque data). -/
structure ParameterDefinition where
  name : String
  type : ParamType
  description : String
  required : Bool
  «example» : Option String
deriving DecidableEq, Repr

/-- `ActionDefinition` from src/types.ts. -/
structure ActionDefinition where
  name : String
  description : String
  parameters : List ParameterDefinition
  returns : String
  _internal : Option ActionInternal
deriving DecidableEq, Repr

/-- `NavigationLink.type` from src/types.ts. -/
inductive NavType where
  | primary | secondary | breadcrumb
deriving DecidableEq, Repr

/-- `NavigationLink` from src/types.ts. -/
structure NavigationLink where
  label : String
  url : String
  type : NavType
deriving DecidableEq, Repr

/-- `FormField` from src/types.ts. -/
structure FormField where
  name : String
  label : String
  type : String
  required : Bool
  placeholder : Option String
  selector : String
deriving DecidableEq, Repr

/-- `FormDefinition` from src/types.ts. -/
structure FormDefinition where
  name : String
  purpose : String
  fields : List FormField
  submit_action : String
deriving DecidableEq, Repr

/-- `SemanticPageModel` from src/types.ts.  `key_data` is
`Record<string, unknown>`; the unknown-typed values are modelled as
strings (only their identity and the number of entries matter to the
core). -/
structure SemanticPageModel where
  url : String
  page_type : PageType
  title : String
  task_status : String
  key_data : List (String × String)
  available_actions : List ActionDefinition
  warnings : List String
  navigation : List NavigationLink
  forms : List FormDefinition
  timestamp : Int
deriving DecidableEq, Repr

/-- `StateChange` from src/types.ts.  Optional TS fields become `Option`. -/
structure StateChange where
  navigated_to : Option String
  page_type_changed : Option (PageType × PageType)
  elements_changed : Option (List String)
  form_submitted : Option Bool
  auth_state_changed : Option Bool
  summary : String
deriving DecidableEq, Repr

/-- `ActionResult` from src/types.ts.  The `data?: unknown` payload is
only ever set to the accumulated error list by `fillForm`, so it is
modelled as an optional list of strings. -/
structure ActionResult where
  success : Bool
  state_change : StateChange
  data : Option (List String)
  error : Option String
  next_available_actions : List String
deriving DecidableEq, Repr

/-- `AgentTask` from src/types.ts (goal/url are what `runTask` reads; the
optional context payload is irrelevant to the executor and omitted). -/
structure AgentTask where
  id : String
  goal : String
  url : String
deriving DecidableEq, Repr

/-- The object literal `{ page_state: model, key_data: model.key_data }`
that `runTask` places in `TaskResult.output`. -/
structure TaskOutput where
  page_state : SemanticPageModel
  key_data : List (String × String)
deriving DecidableEq, Repr

/-- `TaskResult` from src/types.ts. -/
structure TaskResult where
  task_id : String
  success : Bool
  output : Option TaskOutput
  steps_taken : Nat
  error : Option String
deriving DecidableEq, Repr

/-! ## Model of the WHATWG `new URL` constructor

`SiteMemoryStore.normalizeUrl`, `SiteMemoryStore.getDomain` and
`TaskExecutor.getDomain` call the platform's `new URL(url)` inside
`try`/`catch`.  `parseUrl` below models the fragment of the WHATWG URL
standard those claims exercise; `none` models a thrown `TypeError`. -/

/-- Characters a URL scheme may contain after its first character
(WHATWG scheme state). -/
def isSchemeChar (c : Char) : Bool :=
  c.isAlphanum || c = '+' || c = '-' || c = '.'

/-- ASCII lowercasing, applied by the URL parser to schemes and domain
hosts. -/
def asciiLower (c : Char) : Char :=
  if 'A' ≤ c ∧ c ≤ 'Z' then Char.ofNat (c.toNat + 32) else c

/-- Split `scheme ":"` off the front of a URL: a nonempty run of scheme
characters starting with an ASCII letter, terminated by a colon.
Anything else fails, since there is no base URL to resolve against. -/
def splitScheme (cs : List Char) : Option (List Char × List Char) :=
  match cs.takeWhile isSchemeChar, cs.dropWhile isSchemeChar with
  | c :: pre, ':' :: rest => if c.isAlpha then some (c :: pre, rest) else none
  | _, _ => none

/-- Characters ending the authority component of a special-scheme URL. -/
def authEndSpecial (c : Char) : Bool := c = '/' || c = '\\' || c = '?' || c = '#'

/-- Characters ending the authority component of a non-special URL. -/
def authEndNon (c : Char) : Bool := c = '/' || c = '?' || c = '#'

/-- Characters ending the path component (start of query or fragment). -/
def pathEnd (c : Char) : Bool := c = '?' || c = '#'

/-- Forbidden host code points (WHATWG), restricted to ASCII. -/
def hostForbidden (c : Char) : Bool :=
  c = ':' || c = '@' || c = '/' || c = '?' || c = '#' || c = '[' || c = ']' ||
  c = '\\' || c = '<' || c = '>' || c = '^' || c = '|' || c = ' '

/-- Host parsing within an authority: strip the userinfo (up to the last
`@`), split off a digits-only `:port`, keep a bracketed IPv6 host
verbatim, lowercase and validate a domain host.  `allowEmptyHost` is
false exactly for special non-file schemes (`new URL("http://")`
throws). -/
def parseAuthority (allowEmptyHost : Bool) (auth : List Char) : Option (List Char) :=
  let hostport := (auth.reverse.takeWhile (fun c => c ≠ '@')).reverse
  match hostport with
  | '[' :: t =>
    let inside := t.takeWhile (fun c => c ≠ ']')
    match t.dropWhile (fun c => c ≠ ']') with
    | ']' :: rest =>
      match rest with
      | [] => some ('[' :: (inside ++ [']']))
      | ':' :: ds =>
        if ds.all Char.isDigit then some ('[' :: (inside ++ [']'])) else none
      | _ => none
    | _ => none
  | _ =>
    let host := (hostport.takeWhile (fun c => c ≠ ':')).map asciiLower
    let rest := hostport.dropWhile (fun c => c ≠ ':')
    let portOk := match rest with
      | [] => true
      | ':' :: ds => ds.all Char.isDigit
      | _ => false
    if portOk && host.all (fun c => !hostForbidden c) && (allowEmptyHost || !host.isEmpty)
    then some host
    else none

/-- The result of a successful parse: the three components the store and
executor read (`u.hostname`, `u.pathname`; the scheme drives parsing). -/
structure UrlParts where
  scheme : String
  hostname : String
  pathname : String
deriving DecidableEq, Repr

/-- WHATWG special schemes. -/
def isSpecial (scheme : String) : Bool :=
  scheme = "http" || scheme = "https" || scheme = "ws" || scheme = "wss" ||
  scheme = "ftp" || scheme = "file"

/-- In special-scheme URLs backslashes behave as slashes. -/
def slashify (c : Char) : Char := if c = '\\' then '/' else c

/-- Special non-file schemes: skip any run of slashes, then parse an
authority; the path is everything up to the query/fragment, defaulting to
`"/"`. -/
def parseSpecialRest (scheme : String) (rest : List Char) : Option UrlParts :=
  let r := rest.dropWhile (fun c => c = '/' || c = '\\')
  let auth := r.takeWhile (fun c => !authEndSpecial c)
  let after := r.dropWhile (fun c => !authEndSpecial c)
  match parseAuthority false auth with
  | none => none
  | some host =>
    let pathRaw := (after.takeWhile (fun c => !pathEnd c)).map slashify
    let path := if pathRaw.isEmpty then ['/'] else pathRaw
    some ⟨scheme, String.mk host, String.mk path⟩

/-- `file:` URLs: a `//` introduces a (possibly empty) host; otherwise the
host is empty and the path is made absolute. -/
def parseFileRest (rest : List Char) : Option UrlParts :=
  if rest.take 2 = ['/', '/'] then
    let r := rest.drop 2
    let auth := r.takeWhile (fun c => !authEndSpecial c)
    let after := r.dropWhile (fun c => !authEndSpecial c)
    match parseAuthority true auth with
    | none => none
    | some host =>
      let pathRaw := (after.takeWhile (fun c => !pathEnd c)).map slashify
      let path := if pathRaw.isEmpty then ['/'] else pathRaw
      some ⟨"file", String.mk host, String.mk path⟩
  else
    let pathRaw := (rest.takeWhile (fun c => !pathEnd c)).map slashify
    let path := if pathRaw.head? = some '/' then pathRaw else '/' :: pathRaw
    some ⟨"file", "", String.mk path⟩

/-- Non-special schemes: `//` introduces an authority (empty host
allowed); otherwise the remainder is an opaque path with empty host. -/
def parseNonSpecialRest (scheme : String) (rest : List Char) : Option UrlParts :=
  if rest.take 2 = ['/', '/'] then
    let r := rest.drop 2
    let auth := r.takeWhile (fun c => !authEndNon c)
    let after := r.dropWhile (fun c => !authEndNon c)
    match parseAuthority true auth with
    | none => none
    | some host =>
      let path := after.takeWhile (fun c => !pathEnd c)
      some ⟨scheme, String.mk host, String.mk path⟩
  else
    let path := rest.takeWhile (fun c => !pathEnd c)
    some ⟨scheme, "", String.mk path⟩

/-- Model of `new URL(url)` without a base URL. -/
def parseUrl (url : String) : Option UrlParts :=
  match splitScheme url.toList with
  | none => none
  | some (schemeCs, rest) =>
    let scheme := String.mk (schemeCs.map asciiLower)
    if scheme = "file" then parseFileRest rest
    else if isSpecial scheme then parseSpecialRest scheme rest
    else parseNonSpecialRest scheme rest

/-- The path component of `normalizeUrl`:
`u.pathname.replace(/\/$/, '') || '/'` on the character-list view. -/
def normalizePathChars (pl : List Char) : List Char :=
  if (if pl.getLast? = some '/' then pl.dropLast else pl).isEmpty then ['/']
  else if pl.getLast? = some '/' then pl.dropLast else pl

/-- `SiteMemoryStore.normalizeUrl` (the store is its only home; the
executor re-derives only domains): `hostname` plus
`pathname.replace(/\/$/, '') || '/'`, or the input unchanged when
`new URL` throws. -/
def normalizeUrl (url : String) : String :=
  match parseUrl url with
  | some u => u.hostname ++ String.mk (normalizePathChars u.pathname.toList)
  | none => url

/-- `SiteMemoryStore.getDomain` and `TaskExecutor.getDomain`:
`new URL(url).hostname`, or the input unchanged when parsing throws. -/
def getDomain (url : String) : String :=
  match parseUrl url with
  | some u => u.hostname
  | none => url

/-! ## SiteMemoryStore — selector library -/

/-- One row of the `selector_library` table (the autoincrement `id` is
the list position; `UNIQUE(domain, action_name, selector)` is the upsert
key). -/
structure SelectorRecord where
  domain : String
  action_name : String
  selector : String
  success_count : Nat
  fail_count : Nat
  last_used : Int
deriving DecidableEq, Repr

/-- Whether a row belongs to the upsert key `(domain, action_name,
selector)`. -/
def selKeyMatch (domain actionName selector : String) (r : SelectorRecord) : Bool :=
  r.domain = domain && r.action_name = actionName && r.selector = selector

/-- `SiteMemoryStore.recordSelectorOutcome`: no-op on an empty selector;
otherwise `INSERT ... ON CONFLICT DO UPDATE` adding one success or one
failure to the unique row for the key. -/
def recordSelectorOutcome (lib : List SelectorRecord)
    (domain actionName selector : String) (success : Bool) (now : Int) :
    List SelectorRecord :=
  if selector = "" then lib
  else if lib.any (selKeyMatch domain actionName selector) then
    lib.map fun r =>
      if selKeyMatch domain actionName selector r then
        { r with
          success_count := r.success_count + (if success then 1 else 0)
          fail_count := r.fail_count + (if success then 0 else 1)
          last_used := now }
      else r
  else
    lib ++ [{ domain := domain, action_name := actionName, selector := selector
              success_count := if success then 1 else 0
              fail_count := if success then 0 else 1
              last_used := now }]

/-- `success_count + fail_count`, the `attempts` column of the query in
`getBestSelector`. -/
def selAttempts (r : SelectorRecord) : Nat := r.success_count + r.fail_count

/-- `CAST(success_count AS REAL) / (success_count + fail_count)`, the
`rate` column; SQLite's REAL division is modelled in ℚ. -/
def selRate (r : SelectorRecord) : ℚ :=
  (r.success_count : ℚ) / ((r.success_count : ℚ) + (r.fail_count : ℚ))

/-- The rows `WHERE domain = ? AND action_name = ? AND success_count +
fail_count >= 2` — the minimum-attempts threshold. -/
def selCandidates (lib : List SelectorRecord) (domain actionName : String) :
    List SelectorRecord :=
  lib.filter fun r =>
    r.domain = domain && r.action_name = actionName && decide (2 ≤ selAttempts r)

/-- `ORDER BY rate DESC, attempts DESC LIMIT 1`: the row maximal in the
lexicographic (rate, attempts) order.  On full ties SQLite may return any
of the tied rows; this picks the earliest, one of the allowed outcomes. -/
def pickBest : List SelectorRecord → Option SelectorRecord
  | [] => none
  | r :: rs =>
    match pickBest rs with
    | none => some r
    | some b =>
      if selRate r < selRate b ∨ (selRate r = selRate b ∧ selAttempts r < selAttempts b)
      then some b else some r

/-- `SiteMemoryStore.getBestSelector`: the top row of the thresholded,
ordered query, or `null` when there is no row or its rate is below 0.5. -/
def getBestSelector (lib : List SelectorRecord) (domain actionName : String) :
    Option String :=
  match pickBest (selCandidates lib domain actionName) with
  | none => none
  | some row => if selRate row < 1/2 then none else some row.selector

/-! ## SiteMemoryStore — page model cache, profiles, visit counts -/

/-- `CACHE_TTL_MS` (30 minutes). -/
def CACHE_TTL_MS : Int := 1000 * 60 * 30

/-- One row of the `page_model_cache` table; `model` stands for
`model_json` with JSON round-tripping modelled as the identity. -/
structure CacheEntry where
  url_pattern : String
  domain : String
  model : SemanticPageModel
  hit_count : Nat
  last_updated : Int
deriving DecidableEq, Repr

/-- `SiteMemoryStore.getCachedModel`: normalize the URL, look the pattern
up, report `null` when absent or past the TTL, otherwise bump the hit
counter (the returned state) and return the stored model. -/
def getCachedModel (cache : List CacheEntry) (url : String) (now : Int) :
    Option SemanticPageModel × List CacheEntry :=
  let pattern := normalizeUrl url
  match cache.find? (fun e => e.url_pattern = pattern) with
  | none => (none, cache)
  | some row =>
    if CACHE_TTL_MS < now - row.last_updated then (none, cache)
    else
      (some row.model,
       cache.map fun e =>
         if e.url_pattern = pattern then { e with hit_count := e.hit_count + 1 } else e)

/-- `SiteMemoryStore.cacheModel`: upsert on the normalized pattern,
replacing the stored model and resetting `last_updated` (the hit count
and original domain column are left as they were by the `ON CONFLICT`
clause). -/
def cacheModel (cache : List CacheEntry) (url : String)
    (model : SemanticPageModel) (now : Int) : List CacheEntry :=
  let pattern := normalizeUrl url
  if cache.any (fun e => e.url_pattern = pattern) then
    cache.map fun e =>
      if e.url_pattern = pattern then { e with model := model, last_updated := now }
      else e
  else
    cache ++ [{ url_pattern := pattern, domain := getDomain url, model := model
                hit_count := 0, last_updated := now }]

/-- `SiteMemoryStore.invalidateCache`: delete every entry of a domain. -/
def invalidateCache (cache : List CacheEntry) (domain : String) : List CacheEntry :=
  cache.filter fun e => e.domain ≠ domain

/-- One row of the `site_profiles` table (`page_types` and `notes` are the
JSON-decoded arrays). -/
structure SiteProfile where
  domain : String
  page_types : List String
  notes : List String
  last_updated : Int
deriving DecidableEq, Repr

/-- `SiteMemoryStore.updateSiteProfile`: add the page type if new; append
the note if truthy (non-empty) and not already present, evicting the
oldest note past 20; upsert the row. -/
def updateSiteProfile (profiles : List SiteProfile) (domain pageType : String)
    (note : Option String) (now : Int) : List SiteProfile :=
  let existing := profiles.find? (fun p => p.domain = domain)
  let pageTypes := (existing.map (·.page_types)).getD []
  let notes := (existing.map (·.notes)).getD []
  let pageTypes := if pageType ∈ pageTypes then pageTypes else pageTypes ++ [pageType]
  let notes :=
    match note with
    | some n =>
      if n ≠ "" ∧ n ∉ notes then
        let pushed := notes ++ [n]
        if 20 < pushed.length then pushed.tail else pushed
      else notes
    | none => notes
  let row : SiteProfile :=
    { domain := domain, page_types := pageTypes, notes := notes, last_updated := now }
  if profiles.any (fun p => p.domain = domain) then
    profiles.map fun p => if p.domain = domain then row else p
  else
    profiles ++ [row]

/-- `SiteMemoryStore.incrementVisitCount`, restricted to the
`visit_count` column the executor and context builder read (`data` stays
an opaque blob). -/
def incrementVisitCount (counts : List (String × Nat)) (domain : String) :
    List (String × Nat) :=
  if counts.any (fun p => p.1 = domain) then
    counts.map fun p => if p.1 = domain then (p.1, p.2 + 1) else p
  else
    counts ++ [(domain, 1)]

/-- The durable state of one `SiteMemoryStore` (the four tables the
claims touch; saved sessions are independent and unexercised). -/
structure MemoryState where
  site_knowledge : List (String × Nat)
  page_model_cache : List CacheEntry
  selector_library : List SelectorRecord
  site_profiles : List SiteProfile
deriving DecidableEq, Repr

/-! ## SemanticAnalyzer — model ingestion

Only the two pure pieces of the translator matter to the claims: the
`buildModel` step that turns parsed LLM output into a `SemanticPageModel`
and the `fallbackModel` used when analysis fails.  The LLM call itself is
an external collaborator. -/

/-- The JSON object the analyzer parses out of the LLM reply, before
`buildModel` applies its `?? default` casts.  Every field may be absent;
no field is validated (the TS `as` casts do not check). -/
structure ParsedModel where
  page_type : Option PageType
  title : Option String
  task_status : Option String
  key_data : Option (List (String × String))
  available_actions : Option (List ActionDefinition)
  warnings : Option (List String)
  navigation : Option (List NavigationLink)
  forms : Option (List FormDefinition)
deriving DecidableEq, Repr

/-- `SemanticAnalyzer.buildModel`: each field of the parsed output is
adopted as-is, defaulting only when absent; nothing is truncated or
re-validated. -/
def buildModel (url : String) (now : Int) (parsed : ParsedModel) : SemanticPageModel :=
  { url := url
    page_type := parsed.page_type.getD .unknown
    title := parsed.title.getD ""
    task_status := parsed.task_status.getD ""
    key_data := parsed.key_data.getD []
    available_actions := parsed.available_actions.getD []
    warnings := parsed.warnings.getD []
    navigation := parsed.navigation.getD []
    forms := parsed.forms.getD []
    timestamp := now }

/-- `SemanticAnalyzer.fallbackModel`: the degraded model offering one raw
extraction action, produced when the translator reply is unusable. -/
def fallbackModel (url : String) (now : Int) : SemanticPageModel :=
  { url := url
    page_type := .unknown
    title := ""
    task_status := "page loaded, analysis failed"
    key_data := []
    available_actions :=
      [{ name := "extract_raw"
         description := "Extract raw text content from the page"
         parameters := []
         returns := "Raw text content of the page"
         _internal := none }]
    warnings := ["semantic analysis failed — falling back to raw extraction"]
    navigation := []
    forms := []
    timestamp := now }

/-! ## TaskExecutor

The driver (BrowserEngine) and the translator are modelled as scripted
response queues, consumed one entry per call in program order; `Except`
entries model operations whose awaited promise may reject.  An exhausted
queue yields a rejection for fallible operations and a benign default for
infallible reads. -/

deriving instance DecidableEq for Except

/-- The scripted external world: successive responses of
`getCurrentUrl`, `checkForCaptcha`, `getPageHTML`,
`getAccessibilityTree`, `click`, `fill`, `navigate`, and of the
translator's `analyze` (which resolves to a model — on unusable replies
it already resolves to `fallbackModel` internally). -/
structure Script where
  urls : List String
  captchas : List (Except String Bool)
  htmls : List String
  trees : List String
  clicks : List (Except String Unit)
  fills : List (Except String Unit)
  navs : List (Except String Unit)
  analyses : List SemanticPageModel
deriving DecidableEq, Repr

/-- The in-process state of one `TaskExecutor`: the scripted world, the
shared store, the per-session `pageModels` map, and the current clock. -/
structure ExecState where
  script : Script
  memory : MemoryState
  pageModels : List (String × SemanticPageModel)
  now : Int
deriving DecidableEq, Repr

/-- `engine.getCurrentUrl`. -/
def popUrl (s : ExecState) : String × ExecState :=
  match s.script.urls with
  | [] => ("", s)
  | u :: rest => (u, { s with script := { s.script with urls := rest } })

/-- `engine.checkForCaptcha` — an awaited driver call whose promise may
reject (it reads the page title), so each scripted response is a
resolution to a Bool or a rejection. -/
def popCaptcha (s : ExecState) : Except String Bool × ExecState :=
  match s.script.captchas with
  | [] => (.error "script exhausted", s)
  | b :: rest => (b, { s with script := { s.script with captchas := rest } })

/-- `engine.getPageHTML`. -/
def popHtml (s : ExecState) : String × ExecState :=
  match s.script.htmls with
  | [] => ("", s)
  | h :: rest => (h, { s with script := { s.script with htmls := rest } })

/-- `engine.getAccessibilityTree`. -/
def popTree (s : ExecState) : String × ExecState :=
  match s.script.trees with
  | [] => ("", s)
  | t :: rest => (t, { s with script := { s.script with trees := rest } })

/-- `engine.click` (the awaited promise may reject). -/
def engineClick (s : ExecState) : Except String Unit × ExecState :=
  match s.script.clicks with
  | [] => (.error "script exhausted", s)
  | r :: rest => (r, { s with script := { s.script with clicks := rest } })

/-- `engine.fill` (the awaited promise may reject). -/
def engineFill (s : ExecState) : Except String Unit × ExecState :=
  match s.script.fills with
  | [] => (.error "script exhausted", s)
  | r :: rest => (r, { s with script := { s.script with fills := rest } })

/-- `engine.navigate` as called from `performAction` on an absolute-URL
navigate hint. -/
def engineNavigate (s : ExecState) : Except String Unit × ExecState :=
  match s.script.navs with
  | [] => (.error "script exhausted", s)
  | r :: rest => (r, { s with script := { s.script with navs := rest } })

/-- `analyzer.analyze` (resolving to `fallbackModel` when the script is
exhausted, mirroring the analyzer's own degraded path). -/
def popAnalysis (s : ExecState) (url : String) : SemanticPageModel × ExecState :=
  match s.script.analyses with
  | [] => (fallbackModel url s.now, s)
  | m :: rest => (m, { s with script := { s.script with analyses := rest } })

/-- Write into the per-session `pageModels` map. -/
def setModel (models : List (String × SemanticPageModel)) (sessionId : String)
    (m : SemanticPageModel) : List (String × SemanticPageModel) :=
  if models.any (fun p => p.1 = sessionId) then
    models.map fun p => if p.1 = sessionId then (p.1, m) else p
  else
    models ++ [(sessionId, m)]

/-- Read from the per-session `pageModels` map. -/
def lookupModel (models : List (String × SemanticPageModel)) (sessionId : String) :
    Option SemanticPageModel :=
  (models.find? (fun p => p.1 = sessionId)).map (·.2)

/-- `TaskExecutor.buildCaptchaModel`: the fixed hard-stop model. -/
def buildCaptchaModel (url : String) (now : Int) : SemanticPageModel :=
  { url := url
    page_type := .captcha
    title := "CAPTCHA Challenge"
    task_status := "blocked by CAPTCHA"
    key_data := []
    available_actions := []
    warnings := ["CAPTCHA detected — automated interaction blocked"]
    navigation := []
    forms := []
    timestamp := now }

/-- `TaskExecutor.refreshModel`: current URL; CAPTCHA short-circuit;
cache lookup; else fetch content, translate (the context digest is a pure
read of the store passed to the translator), record the visit, update the
profile, cache the model; adopt the result as the session's current
model.  A rejection of the awaited `checkForCaptcha` call propagates to
the caller as this promise's rejection (`.error`). -/
def refreshModel (s : ExecState) (sessionId : String) :
    Except String SemanticPageModel × ExecState :=
  let (url, s) := popUrl s
  let (cap, s) := popCaptcha s
  match cap with
  | .error e => (.error e, s)
  | .ok captcha =>
  if captcha then (.ok (buildCaptchaModel url s.now), s)
  else
    let domain := getDomain url
    let (cached, cache') := getCachedModel s.memory.page_model_cache url s.now
    match cached with
    | some model =>
      (.ok model,
       { s with
         memory := { s.memory with page_model_cache := cache' }
         pageModels := setModel s.pageModels sessionId model })
    | none =>
      let (_html, s) := popHtml s
      let (_tree, s) := popTree s
      let (model, s) := popAnalysis s url
      let mem := s.memory
      let mem := { mem with
        site_knowledge := incrementVisitCount mem.site_knowledge domain }
      let mem := { mem with
        site_profiles :=
          updateSiteProfile mem.site_profiles domain model.page_type.toStr none s.now }
      let mem := { mem with
        page_model_cache := cacheModel mem.page_model_cache url model s.now }
      (.ok model,
       { s with
         memory := mem
         pageModels := setModel s.pageModels sessionId model })

/-- `TaskExecutor.getPageState`: the session's current model when one is
cached in memory, else a refresh (whose rejection propagates). -/
def getPageState (s : ExecState) (sessionId : String) :
    Except String SemanticPageModel × ExecState :=
  match lookupModel s.pageModels sessionId with
  | some m => (.ok m, s)
  | none => refreshModel s sessionId

/-- JS truthiness of an optional string (absent and `""` are falsy). -/
def strTruthy : Option String → Option String
  | some s => if s = "" then none else some s
  | none => none

/-- The body of the `field_map` loop in `performAction`: for each mapped
parameter present in `params` with a truthy selector, fill it; a rejected
fill aborts the loop (the exception propagates). -/
def fillFieldMap (s : ExecState) (entries : List (String × String))
    (params : List (String × String)) : Except String Unit × ExecState :=
  match entries with
  | [] => (.ok (), s)
  | (paramName, selector) :: rest =>
    match (params.find? (fun p => p.1 = paramName)).map (·.2) with
    | some _value =>
      if selector ≠ "" then
        match engineFill s with
        | (.error e, s) => (.error e, s)
        | (.ok _, s) => fillFieldMap s rest params
      else fillFieldMap s rest params
    | none => fillFieldMap s rest params

/-- The Tier-3 resolution-failure message of `performAction`. -/
def noSelectorMsg (actionName : String) : String :=
  "Cannot execute '" ++ actionName ++ "' — no selector available. " ++
  "This action needs to be executed at least once with explicit selectors to learn from."

/-- `TaskExecutor.performAction`: Tier 1 uses the hint (click / fill-form
with optional submit / navigate); a fill-form hint without a submit
selector and a hint of any unhandled shape fall through to Tier 2, the
store's best learned selector; with neither, the resolution-failure
error is thrown. -/
def performAction (s : ExecState) (action : ActionDefinition)
    (params : List (String × String)) (domain : String) :
    Except String Unit × ExecState :=
  let tier2 := fun (s : ExecState) =>
    match getBestSelector s.memory.selector_library domain action.name with
    | some _remembered => engineClick s
    | none => (.error (noSelectorMsg action.name), s)
  match action._internal with
  | none => tier2 s
  | some internal =>
    if internal.type = .click ∧ (strTruthy internal.selector).isSome then
      engineClick s
    else if (internal.type = .fill ∨ internal.type = .form) ∧ internal.field_map.isSome then
      match fillFieldMap s (internal.field_map.getD []) params with
      | (.error e, s) => (.error e, s)
      | (.ok _, s) =>
        match strTruthy internal.submit_selector with
        | some _sel => engineClick s
        | none => tier2 s
    else
      match strTruthy internal.selector with
      | some sel =>
        if internal.type = .navigate then
          if sel.startsWith "http://" ∨ sel.startsWith "https://" then engineNavigate s
          else engineClick s
        else tier2 s
      | none => tier2 s

/-- `TaskExecutor.learnFromAction`: nothing without a hint; otherwise one
outcome for the hint's selector, one per field-map entry under
`action.param`, and one for the submit selector under `action.submit`. -/
def learnFromAction (lib : List SelectorRecord) (domain actionName : String)
    (action : ActionDefinition) (success : Bool) (now : Int) :
    List SelectorRecord :=
  match action._internal with
  | none => lib
  | some internal =>
    let lib :=
      match strTruthy internal.selector with
      | some sel => recordSelectorOutcome lib domain actionName sel success now
      | none => lib
    let lib :=
      match internal.field_map with
      | some fm =>
        fm.foldl
          (fun l pv =>
            if pv.2 ≠ "" then
              recordSelectorOutcome l domain (actionName ++ "." ++ pv.1) pv.2 success now
            else l)
          lib
      | none => lib
    match strTruthy internal.submit_selector with
    | some sel =>
      recordSelectorOutcome lib domain (actionName ++ ".submit") sel success now
    | none => lib

/-- `TaskExecutor.buildSummary`. -/
def buildSummary (urlBefore urlAfter : String)
    (before after : SemanticPageModel) : String :=
  if urlBefore ≠ urlAfter then
    "Navigated from " ++ before.page_type.toStr ++ " to " ++ after.page_type.toStr ++
      ". " ++ after.task_status
  else if before.page_type ≠ after.page_type then
    "Page changed from " ++ before.page_type.toStr ++ " to " ++ after.page_type.toStr
  else
    "Action completed. Page: " ++ after.task_status

/-- `TaskExecutor.buildStateChange`. -/
def buildStateChange (urlBefore urlAfter : String)
    (modelBefore modelAfter : SemanticPageModel) : StateChange :=
  let navigated := urlBefore ≠ urlAfter
  let typeChanged := modelBefore.page_type ≠ modelAfter.page_type
  { navigated_to := if navigated then some urlAfter else none
    page_type_changed :=
      if typeChanged then some (modelBefore.page_type, modelAfter.page_type) else none
    elements_changed := none
    form_submitted := some (decide (0 < modelBefore.forms.length ∧ navigated))
    auth_state_changed :=
      some (decide (modelBefore.page_type = .login ∧ modelAfter.page_type ≠ .login))
    summary := buildSummary urlBefore urlAfter modelBefore modelAfter }

/-- `TaskExecutor.errorResult`. -/
def errorResult (message : String) (currentModel : SemanticPageModel) : ActionResult :=
  { success := false
    state_change :=
      { navigated_to := none, page_type_changed := none, elements_changed := none
        form_submitted := none, auth_state_changed := none, summary := message }
    data := none
    error := some message
    next_available_actions := currentModel.available_actions.map (·.name) }

/-- The profile note `action 'A' on P leads to Q` written on the success
path of `executeAction`. -/
def transitionNote (actionName : String) (before after : PageType) : String :=
  "action '" ++ actionName ++ "' on " ++ before.toStr ++ " leads to " ++ after.toStr

/-- `TaskExecutor.executeAction`: resolve the action against the current
model (a `getPageState` rejection happens before the try block and
propagates); record the pre-action URL and domain; perform the action; on
success re-check for a CAPTCHA, invalidate the domain cache if the URL
changed, refresh, learn with success=true and append the transition note;
any exception thrown inside the try — the low-level action, the CAPTCHA
re-check or the refresh rejecting — lands in the catch, which learns with
success=false and returns a failure result with the original message and
the pre-action actions. -/
def executeAction (s : ExecState) (sessionId actionName : String)
    (params : List (String × String)) : Except String ActionResult × ExecState :=
  match getPageState s sessionId with
  | (.error e, s) => (.error e, s)
  | (.ok model, s) =>
    match model.available_actions.find? (fun a => a.name = actionName) with
    | none =>
      (.ok (errorResult
        ("Action '" ++ actionName ++ "' not available. Available: " ++
          String.intercalate ", " (model.available_actions.map (·.name)))
        model), s)
    | some action =>
      let (urlBefore, s) := popUrl s
      let domain := getDomain urlBefore
      match performAction s action params domain with
      | (.error emsg, s) =>
        let s := { s with memory := { s.memory with
          selector_library :=
            learnFromAction s.memory.selector_library domain actionName action false s.now } }
        (.ok (errorResult ("Action '" ++ actionName ++ "' failed: " ++ emsg) model), s)
      | (.ok _, s) =>
        match popCaptcha s with
        | (.error emsg, s) =>
          let s := { s with memory := { s.memory with
            selector_library :=
              learnFromAction s.memory.selector_library domain actionName action false s.now } }
          (.ok (errorResult ("Action '" ++ actionName ++ "' failed: " ++ emsg) model), s)
        | (.ok captcha, s) =>
          if captcha then (.ok (errorResult "CAPTCHA appeared after action." model), s)
          else
            let (urlAfter, s) := popUrl s
            let s :=
              if urlAfter ≠ urlBefore then
                { s with memory := { s.memory with
                  page_model_cache := invalidateCache s.memory.page_model_cache domain } }
              else s
            match refreshModel s sessionId with
            | (.error emsg, s) =>
              let s := { s with memory := { s.memory with
                selector_library :=
                  learnFromAction s.memory.selector_library domain actionName action false s.now } }
              (.ok (errorResult ("Action '" ++ actionName ++ "' failed: " ++ emsg) model), s)
            | (.ok newModel, s) =>
              let s := { s with memory := { s.memory with
                selector_library :=
                  learnFromAction s.memory.selector_library domain actionName action true s.now } }
              let s := { s with memory := { s.memory with
                site_profiles :=
                  updateSiteProfile s.memory.site_profiles domain newModel.page_type.toStr
                    (some (transitionNote actionName model.page_type newModel.page_type)) s.now } }
              (.ok { success := true
                     state_change := buildStateChange urlBefore urlAfter model newModel
                     data := none
                     error := none
                     next_available_actions := newModel.available_actions.map (·.name) }, s)

/-! ## Parallel tasks

`runTask` creates a session outside its `try`, navigates inside it, and
destroys the session in a `finally`: exceptions of `createSession` and
`destroySession` therefore reject the task's promise, and
`Promise.all` in `runParallel` rejects the whole batch with the first
such rejection.  The driver steps of one task are modelled as a per-task
environment; navigation (driver navigate plus model refresh) is
collapsed into its resulting model or rejection. -/

/-- What the driver does for one task: the outcome of `createSession`,
of the awaited `navigate`+refresh, and of `destroySession`. -/
structure TaskEnv where
  createSession : Except String String
  navigateResult : Except String SemanticPageModel
  destroySession : Except String Unit
deriving DecidableEq, Repr

/-- Observable driver lifecycle calls made while running one task. -/
inductive EngineEvent where
  | createCalled
  | destroyCalled (sessionId : String)
deriving DecidableEq, Repr

/-- `TaskExecutor.runTask`: `.ok` is a settled `TaskResult` (success or
per-task failure); `.error` is a rejected promise (createSession threw,
or the `finally` teardown threw).  The second component records the
driver lifecycle calls. -/
def runTask (env : TaskEnv) (task : AgentTask) :
    Except String TaskResult × List EngineEvent :=
  match env.createSession with
  | .error e => (.error e, [.createCalled])
  | .ok sessionId =>
    let res : TaskResult :=
      match env.navigateResult with
      | .ok model =>
        { task_id := task.id, success := true
          output := some { page_state := model, key_data := model.key_data }
          steps_taken := 1, error := none }
      | .error e =>
        { task_id := task.id, success := false, output := none
          steps_taken := 0, error := some e }
    let events := [EngineEvent.createCalled, EngineEvent.destroyCalled sessionId]
    match env.destroySession with
    | .error e => (.error e, events)
    | .ok _ => (.ok res, events)

/-- Collect `Promise.all`: all fulfilled values, or the first rejection
in list order (one deterministic choice among the real race's winners). -/
def promiseAll : List (Except String TaskResult) → Except String (List TaskResult)
  | [] => .ok []
  | .error e :: _ => .error e
  | .ok r :: rest =>
    match promiseAll rest with
    | .error e => .error e
    | .ok rs => .ok (r :: rs)

/-- `TaskExecutor.runParallel`: `Promise.all(tasks.map(runTask))`. -/
def runParallel (env : AgentTask → TaskEnv) (tasks : List AgentTask) :
    Except String (List TaskResult) :=
  promiseAll (tasks.map fun t => (runTask (env t) t).1)

/-! ## Selector library: concrete scenarios and the ordering property -/

/-- The library after recording two successes for `#btn` under
(`x.com`, `login`), starting from an empty store. -/
def libTwoSuccesses : List SelectorRecord :=
  recordSelectorOutcome
    (recordSelectorOutcome [] "x.com" "login" "#btn" true 1)
    "x.com" "login" "#btn" true 2

/-- `libTwoSuccesses` after one further success and two further failures
for the same key (3 successes / 2 failures in total). -/
def libAfterMixed : List SelectorRecord :=
  recordSelectorOutcome
    (recordSelectorOutcome
      (recordSelectorOutcome libTwoSuccesses "x.com" "login" "#btn" true 3)
      "x.com" "login" "#btn" false 4)
    "x.com" "login" "#btn" false 5

/-- `libAfterMixed` after two more failures (3 successes / 4 failures). -/
def libMoreFailures : List SelectorRecord :=
  recordSelectorOutcome
    (recordSelectorOutcome libAfterMixed "x.com" "login" "#btn" false 6)
    "x.com" "login" "#btn" false 7

/-- `r'` is no better than `r` in the ORDER BY of `getBestSelector`:
lower rate, or equal rate and no more attempts. -/
def selPreferred (r' r : SelectorRecord) : Prop :=
  selRate r' ≤ selRate r ∧ (selRate r' = selRate r → selAttempts r' ≤ selAttempts r)

/-- `pickBest` returns an element of its input that every element is no
better than. -/
theorem pickBest_spec (l : List SelectorRecord) (b : SelectorRecord)
    (h : pickBest l = some b) : b ∈ l ∧ ∀ r ∈ l, selPreferred r b := by
  induction l generalizing b with
  | nil => simp [pickBest] at h
  | cons x xs ih =>
    rw [pickBest] at h
    cases hx : pickBest xs with
    | none =>
      rw [hx] at h
      cases h
      refine ⟨List.mem_cons_self _ _, ?_⟩
      intro r hr
      rcases List.mem_cons.mp hr with hr | hr
      · subst hr; exact ⟨le_refl _, fun _ => le_refl _⟩
      · exfalso
        cases xs with
        | nil => simp at hr
        | cons y ys =>
          rw [pickBest] at hx
          cases hpy : pickBest ys <;> rw [hpy] at hx <;> dsimp only at hx
          · exact Option.noConfusion hx
          · split at hx <;> exact Option.noConfusion hx
    | some c =>
      rw [hx] at h
      dsimp only at h
      obtain ⟨hcmem, hcmax⟩ := ih c hx
      by_cases hcond :
          selRate x < selRate c ∨ (selRate x = selRate c ∧ selAttempts x < selAttempts c)
      · rw [if_pos hcond] at h
        cases h
        refine ⟨List.mem_cons_of_mem _ hcmem, ?_⟩
        intro r hr
        rcases List.mem_cons.mp hr with hr | hr
        · subst hr
          rcases hcond with hlt | ⟨heq, hatt⟩
          · exact ⟨le_of_lt hlt, fun he => absurd he (ne_of_lt hlt)⟩
          · exact ⟨le_of_eq heq, fun _ => le_of_lt hatt⟩
        · exact hcmax r hr
      · rw [if_neg hcond] at h
        cases h
        push_neg at hcond
        obtain ⟨hle, himp⟩ := hcond
        have hcx : selPreferred c x := by
          rcases lt_or_eq_of_le hle with hlt | heq
          · exact ⟨le_of_lt hlt, fun he => absurd he (ne_of_lt hlt)⟩
          · exact ⟨le_of_eq heq, fun _ => himp heq.symm⟩
        refine ⟨List.mem_cons_self _ _, ?_⟩
        intro r hr
        rcases List.mem_cons.mp hr with hr | hr
        · subst hr; exact ⟨le_refl _, fun _ => le_refl _⟩
        · obtain ⟨h1, h2⟩ := hcmax r hr
          obtain ⟨h3, h4⟩ := hcx
          refine ⟨le_trans h1 h3, fun he => ?_⟩
          have hrc : selRate r = selRate c :=
            le_antisymm h1 (le_trans h3 (le_of_eq he.symm))
          have hcx2 : selRate c = selRate x :=
            le_antisymm h3 (le_trans (le_of_eq he.symm) h1)
          exact le_trans (h2 hrc) (h4 hcx2)

/-- Membership in the thresholded candidate set, unfolded. -/
theorem selCandidates_mem (lib : List SelectorRecord) (domain actionName : String)
    (r : SelectorRecord) (h : r ∈ selCandidates lib domain actionName) :
    r ∈ lib ∧ r.domain = domain ∧ r.action_name = actionName ∧ 2 ≤ selAttempts r := by
  rw [selCandidates, List.mem_filter] at h
  obtain ⟨h1, h2⟩ := h
  simp only [Bool.and_eq_true, decide_eq_true_eq] at h2
  exact ⟨h1, h2.1.1, h2.1.2, h2.2⟩

/-- The `UNIQUE(domain, action_name, selector)` constraint of the
`selector_library` table, as a list invariant. -/
def selKeysNodup (lib : List SelectorRecord) : Prop :=
  lib.Pairwise fun r q =>
    ¬(r.domain = q.domain ∧ r.action_name = q.action_name ∧ r.selector = q.selector)

/-- C1 (counterexample): starting from an empty library, recording two
successes for `#btn` under (`x.com`, `login`) and then one further
success and two further failures for the same key accumulates 3
successes / 2 failures — ratio 3/5 ≥ 0.5 — so `getBestSelector` still
returns `#btn`, while the claim says this sequence makes it return
absent. -/
theorem C1_selector_monotonicity_counterexample :
    getBestSelector libAfterMixed "x.com" "login" = some "#btn" := by
  norm_num [libAfterMixed, libTwoSuccesses, getBestSelector, pickBest,
    selCandidates, selRate, selAttempts, recordSelectorOutcome, selKeyMatch]

/-- C1 (amended): from an empty library, two successes for S under
(D, A) make `best_selector(D, A)` return S; one further success and two
further failures leave the accumulated ratio at 3/5 ≥ 0.5, so S is still
returned; only once the accumulated ratio drops below 0.5 — e.g. after
two more failures (3 successes / 4 failures) — does `best_selector`
return absent. -/
theorem C1_selector_monotonicity_amended :
    getBestSelector libTwoSuccesses "x.com" "login" = some "#btn" ∧
    getBestSelector libAfterMixed "x.com" "login" = some "#btn" ∧
    getBestSelector libMoreFailures "x.com" "login" = none := by
  refine ⟨?_, ?_, ?_⟩ <;>
    norm_num [libMoreFailures, libAfterMixed, libTwoSuccesses, getBestSelector,
      pickBest, selCandidates, selRate, selAttempts, recordSelectorOutcome,
      selKeyMatch]

/-- C2: `best_selector(D, A)` returns a selector only if, among the
records for (D, A) with at least 2 attempts, that selector's record has
the highest success ratio (ties broken by higher total attempts) and the
ratio is at least 0.5; in particular a record with exactly one recorded
success and no failures is never the one returned. -/
theorem C2_best_selector_only_if (lib : List SelectorRecord)
    (domain actionName s : String) (hnd : selKeysNodup lib)
    (h : getBestSelector lib domain actionName = some s) :
    ∃ r ∈ selCandidates lib domain actionName,
      r.selector = s ∧ 2 ≤ selAttempts r ∧ 1/2 ≤ selRate r ∧
      (∀ q ∈ selCandidates lib domain actionName, selPreferred q r) ∧
      ∀ q ∈ lib, q.domain = domain → q.action_name = actionName → q.selector = s →
        ¬(q.success_count = 1 ∧ q.fail_count = 0) := by
  rw [getBestSelector] at h
  cases hpb : pickBest (selCandidates lib domain actionName) with
  | none => rw [hpb] at h; exact Option.noConfusion h
  | some row =>
    rw [hpb] at h
    dsimp only at h
    by_cases hrate : selRate row < 1/2
    · rw [if_pos hrate] at h; exact Option.noConfusion h
    · rw [if_neg hrate] at h
      have hs : row.selector = s := Option.some.inj h
      push_neg at hrate
      obtain ⟨hmem, hmax⟩ := pickBest_spec _ _ hpb
      obtain ⟨hlib, hdom, hact, hatt⟩ := selCandidates_mem _ _ _ _ hmem
      refine ⟨row, hmem, hs, hatt, hrate, hmax, ?_⟩
      intro q hq hqd hqa hqs hq10
      obtain ⟨hq1, hq0⟩ := hq10
      by_cases hqr : q = row
      · subst hqr
        rw [selAttempts, hq1, hq0] at hatt
        omega
      · have hsymm : Symmetric fun (a b : SelectorRecord) =>
            ¬(a.domain = b.domain ∧ a.action_name = b.action_name ∧
              a.selector = b.selector) := by
          intro a b hab hk
          exact hab ⟨hk.1.symm, hk.2.1.symm, hk.2.2.symm⟩
        have hne := (List.Pairwise.forall hsymm hnd) hq hlib hqr
        exact hne ⟨hqd.trans hdom.symm, hqa.trans hact.symm, hqs.trans hs.symm⟩

/-- C2 (witness): the concrete two-success library satisfies the
theorem's hypotheses, and its conclusion holds there. -/
theorem C2_best_selector_only_if_witness :
    selKeysNodup libTwoSuccesses ∧
    getBestSelector libTwoSuccesses "x.com" "login" = some "#btn" ∧
    (∃ r ∈ selCandidates libTwoSuccesses "x.com" "login",
      r.selector = "#btn" ∧ 2 ≤ selAttempts r ∧ 1/2 ≤ selRate r ∧
      (∀ q ∈ selCandidates libTwoSuccesses "x.com" "login", selPreferred q r) ∧
      ∀ q ∈ libTwoSuccesses, q.domain = "x.com" → q.action_name = "login" →
        q.selector = "#btn" → ¬(q.success_count = 1 ∧ q.fail_count = 0)) := by
  have hnd : selKeysNodup libTwoSuccesses := by
    rw [selKeysNodup]
    decide
  have hbest : getBestSelector libTwoSuccesses "x.com" "login" = some "#btn" := by
    norm_num [libTwoSuccesses, getBestSelector, pickBest, selCandidates, selRate,
      selAttempts, recordSelectorOutcome, selKeyMatch]
  exact ⟨hnd, hbest, C2_best_selector_only_if _ _ _ _ hnd hbest⟩

/-! ## Cache round-trip and TTL (claim C3) -/

/-- After the upsert branch of `cacheModel` that updates in place, the
first entry found for the pattern carries the new model and write time. -/
theorem find?_map_upsert (c : List CacheEntry) (pat : String)
    (m : SemanticPageModel) (t : Int)
    (hany : c.any (fun e => e.url_pattern = pat) = true) :
    ∃ e, (c.map fun x =>
            if x.url_pattern = pat then { x with model := m, last_updated := t }
            else x).find? (fun x => x.url_pattern = pat) = some e ∧
      e.model = m ∧ e.last_updated = t := by
  induction c with
  | nil => simp at hany
  | cons x xs ih =>
    by_cases hx : x.url_pattern = pat
    · refine ⟨{ x with model := m, last_updated := t }, ?_, rfl, rfl⟩
      rw [List.map_cons, if_pos hx]
      exact List.find?_cons_of_pos _ (by simpa using hx)
    · have hany' : xs.any (fun e => e.url_pattern = pat) = true := by
        rcases List.any_eq_true.mp hany with ⟨y, hy, hyp⟩
        rcases List.mem_cons.mp hy with rfl | hy'
        · exact absurd (of_decide_eq_true hyp) hx
        · exact List.any_eq_true.mpr ⟨y, hy', hyp⟩
      obtain ⟨e, he, hm, ht⟩ := ih hany'
      refine ⟨e, ?_, hm, ht⟩
      rw [List.map_cons, if_neg hx, List.find?_cons_of_neg _ (by simpa using hx)]
      exact he

/-- After `cacheModel`, the entry found for the written pattern carries
the model and the write time. -/
theorem cacheModel_find (c : List CacheEntry) (u : String)
    (m : SemanticPageModel) (t : Int) :
    ∃ e, (cacheModel c u m t).find? (fun x => x.url_pattern = normalizeUrl u) = some e ∧
      e.model = m ∧ e.last_updated = t := by
  rw [cacheModel]
  by_cases hany : c.any (fun e => e.url_pattern = normalizeUrl u) = true
  · rw [if_pos hany]
    exact find?_map_upsert c (normalizeUrl u) m t hany
  · rw [if_neg hany]
    have hnone : c.find? (fun x => x.url_pattern = normalizeUrl u) = none :=
      List.find?_eq_none.mpr fun x hx hp => hany (List.any_eq_true.mpr ⟨x, hx, hp⟩)
    rw [List.find?_append, hnone, Option.none_or]
    refine ⟨{ url_pattern := normalizeUrl u, domain := getDomain u, model := m,
              hit_count := 0, last_updated := t }, ?_, rfl, rfl⟩
    have hp : (fun x : CacheEntry => decide (x.url_pattern = normalizeUrl u))
        { url_pattern := normalizeUrl u, domain := getDomain u, model := m,
          hit_count := 0, last_updated := t } = true := by simp
    exact List.find?_cons_of_pos _ hp

/-- The hit-count bump of a cache read changes neither the model nor the
write time found for any pattern. -/
theorem find?_map_bump (c : List CacheEntry) (pat p : String) :
    ((c.map fun e =>
        if e.url_pattern = pat then { e with hit_count := e.hit_count + 1 }
        else e).find? (fun e => e.url_pattern = p)).map
        (fun e => (e.model, e.last_updated)) =
      (c.find? (fun e => e.url_pattern = p)).map (fun e => (e.model, e.last_updated)) := by
  induction c with
  | nil => rfl
  | cons x xs ih =>
    rw [List.map_cons]
    by_cases hx : x.url_pattern = pat
    · rw [if_pos hx]
      by_cases hp : x.url_pattern = p
      · rw [List.find?_cons_of_pos _ (by simpa using hp),
          List.find?_cons_of_pos _ (by simpa using hp)]
        rfl
      · rw [List.find?_cons_of_neg _ (by simpa using hp),
          List.find?_cons_of_neg _ (by simpa using hp)]
        exact ih
    · rw [if_neg hx]
      by_cases hp : x.url_pattern = p
      · rw [List.find?_cons_of_pos _ (by simpa using hp),
          List.find?_cons_of_pos _ (by simpa using hp)]
      · rw [List.find?_cons_of_neg _ (by simpa using hp),
          List.find?_cons_of_neg _ (by simpa using hp)]
        exact ih

/-- A cache read (`getCachedModel`) never changes the model or the write
time stored under any pattern — only hit counts. -/
theorem getCachedModel_preserve (c : List CacheEntry) (u : String) (now : Int)
    (p : String) :
    (((getCachedModel c u now).2.find? (fun e => e.url_pattern = p)).map
        (fun e => (e.model, e.last_updated))) =
      ((c.find? (fun e => e.url_pattern = p)).map (fun e => (e.model, e.last_updated))) := by
  rw [getCachedModel]
  cases hf : c.find? (fun e => e.url_pattern = normalizeUrl u) with
  | none => rfl
  | some row =>
    dsimp only
    by_cases httl : CACHE_TTL_MS < now - row.last_updated
    · rw [if_pos httl]
    · rw [if_neg httl]
      exact find?_map_bump c (normalizeUrl u) p

/-- A sequence of timed cache reads, applied in order. -/
def applyReads (c : List CacheEntry) : List (String × Int) → List CacheEntry
  | [] => c
  | (u, t) :: rest => applyReads (getCachedModel c u t).2 rest

/-- Reads preserve the model and write time stored under any pattern. -/
theorem applyReads_preserve (reads : List (String × Int)) (c : List CacheEntry)
    (p : String) :
    (((applyReads c reads).find? (fun e => e.url_pattern = p)).map
        (fun e => (e.model, e.last_updated))) =
      ((c.find? (fun e => e.url_pattern = p)).map (fun e => (e.model, e.last_updated))) := by
  induction reads generalizing c with
  | nil => rfl
  | cons r rest ih =>
    obtain ⟨u, t⟩ := r
    rw [applyReads, ih ((getCachedModel c u t).2)]
    exact getCachedModel_preserve c u t p

/-- The value component of a cache read, as a function of the entry
found and its age. -/
theorem getCachedModel_fst (cache : List CacheEntry) (u : String) (now : Int) :
    (getCachedModel cache u now).1 =
      match cache.find? (fun e => e.url_pattern = normalizeUrl u) with
      | none => none
      | some row =>
        if CACHE_TTL_MS < now - row.last_updated then none else some row.model := by
  rw [getCachedModel]
  cases hf : cache.find? (fun e => e.url_pattern = normalizeUrl u) with
  | none => rfl
  | some row =>
    dsimp only
    by_cases httl : CACHE_TTL_MS < now - row.last_updated
    · rw [if_pos httl, if_pos httl]
    · rw [if_neg httl, if_neg httl]

/-- C3: caching a model and reading it back immediately returns an equal
model, and once more than the 30-minute TTL has passed since that write,
the lookup returns absent regardless of any intervening reads (reads
bump hit counts but never the write time). -/
theorem C3_cache_round_trip_ttl (c : List CacheEntry) (u : String)
    (m : SemanticPageModel) (t : Int) (reads : List (String × Int)) (t2 : Int)
    (h : CACHE_TTL_MS < t2 - t) :
    (getCachedModel (cacheModel c u m t) u t).1 = some m ∧
    (getCachedModel (applyReads (cacheModel c u m t) reads) u t2).1 = none := by
  obtain ⟨e, he, hm, ht⟩ := cacheModel_find c u m t
  constructor
  · rw [getCachedModel_fst, he]
    dsimp only
    rw [if_neg, hm]
    rw [ht]
    simp [CACHE_TTL_MS]
  · have hpres := applyReads_preserve reads (cacheModel c u m t) (normalizeUrl u)
    rw [he] at hpres
    cases hf : (applyReads (cacheModel c u m t) reads).find?
        (fun x => x.url_pattern = normalizeUrl u) with
    | none => rw [hf] at hpres; exact absurd hpres (by simp)
    | some e2 =>
      rw [hf] at hpres
      have h2 : e2.last_updated = e.last_updated :=
        congrArg Prod.snd (Option.some.inj hpres)
      rw [getCachedModel_fst, hf]
      dsimp only
      rw [if_pos]
      rw [h2, ht]
      exact h

/-- C3 (witness): a concrete run — write at time 0, one read at time 5,
expiry read at 30 minutes + 1 ms. -/
theorem C3_cache_round_trip_ttl_witness :
    CACHE_TTL_MS < (1800001 : Int) - 0 ∧
    ((getCachedModel (cacheModel [] "https://x.com/a" (fallbackModel "https://x.com/a" 0) 0)
        "https://x.com/a" 0).1 = some (fallbackModel "https://x.com/a" 0) ∧
      (getCachedModel
        (applyReads (cacheModel [] "https://x.com/a" (fallbackModel "https://x.com/a" 0) 0)
          [("https://x.com/a", 5)]) "https://x.com/a" 1800001).1 = none) :=
  ⟨by decide,
   C3_cache_round_trip_ttl [] "https://x.com/a" (fallbackModel "https://x.com/a" 0) 0
     [("https://x.com/a", 5)] 1800001 (by decide)⟩

/-! ## URL normalization: idempotence analysis (claim C7) -/

/-- String append on the character-list view. -/
theorem string_toList_append (a b : String) :
    (a ++ b).toList = a.toList ++ b.toList := by
  cases a; cases b; rfl

/-- `splitScheme` fails whenever the first non-scheme character is not a
colon (or there is none). -/
theorem splitScheme_eq_none (cs : List Char)
    (h : ¬ ((cs.dropWhile isSchemeChar).head? = some ':')) :
    splitScheme cs = none := by
  rw [splitScheme]
  split
  · rename_i heq1 heq2
    exact absurd (by rw [heq2]; rfl) h
  · rfl

/-- Appending to a colon-free prefix cannot make the first non-scheme
character a colon. -/
theorem head_dropWhile_append_ne_colon (l r : List Char)
    (hl : ∀ c ∈ l, c ≠ ':')
    (hr : ¬ ((r.dropWhile isSchemeChar).head? = some ':')) :
    ¬ (((l ++ r).dropWhile isSchemeChar).head? = some ':') := by
  induction l with
  | nil => simpa using hr
  | cons c t ih =>
    rw [List.cons_append, List.dropWhile_cons]
    by_cases hc : isSchemeChar c = true
    · rw [if_pos hc]
      exact ih fun x hx => hl x (List.mem_cons_of_mem _ hx)
    · rw [if_neg hc]
      intro hhead
      exact hl c (List.mem_cons_self _ _) (Option.some.inj hhead)

/-- A host produced by `parseAuthority` is either a bracketed IPv6 host
or contains no colon (ports were split off, forbidden characters
rejected). -/
theorem parseAuthority_spec (allow : Bool) (auth host : List Char)
    (h : parseAuthority allow auth = some host) :
    host.head? = some '[' ∨ ∀ c ∈ host, c ≠ ':' := by
  rw [parseAuthority] at h
  split at h
  · -- bracketed form
    split at h
    · split at h
      · exact Or.inl (by rw [← Option.some.inj h]; rfl)
      · split at h
        · exact Or.inl (by rw [← Option.some.inj h]; rfl)
        · exact Option.noConfusion h
      · exact Option.noConfusion h
    · exact Option.noConfusion h
  · -- domain form
    dsimp only at h
    split at h
    · rename_i hcond
      refine Or.inr ?_
      have h1 := (Bool.and_eq_true _ _).mp hcond
      have h2 := (Bool.and_eq_true _ _).mp h1.1
      have hall2 := List.all_eq_true.mp h2.2
      intro c hc hcolon
      have hfc := hall2 c (by rw [← Option.some.inj h] at hc; exact hc)
      subst hcolon
      simp [hostForbidden] at hfc
    · exact Option.noConfusion h

/-- In a special-scheme URL the serialized path always starts with a
slash: the remainder after the authority starts with an authority
terminator (or is empty), queries and fragments are cut, backslashes
become slashes, and the empty path defaults to `/`. -/
theorem specialPath_head (after : List Char)
    (hafter : ∀ d, after.head? = some d → authEndSpecial d = true) :
    (if ((after.takeWhile (fun c => !pathEnd c)).map slashify).isEmpty then ['/']
     else (after.takeWhile (fun c => !pathEnd c)).map slashify).head? = some '/' := by
  cases after with
  | nil => rfl
  | cons d t =>
    have hd := hafter d rfl
    by_cases hpe : pathEnd d = true
    · have htw : (d :: t).takeWhile (fun c => !pathEnd c) = [] := by
        rw [List.takeWhile_cons, if_neg (by simp [hpe])]
      rw [htw]
      rfl
    · have htw : (d :: t).takeWhile (fun c => !pathEnd c) =
          d :: t.takeWhile (fun c => !pathEnd c) := by
        rw [List.takeWhile_cons, if_pos (by simp [hpe])]
      have hslash : slashify d = '/' := by
        simp only [authEndSpecial, Bool.or_eq_true, decide_eq_true_eq] at hd
        simp only [pathEnd, Bool.or_eq_true, decide_eq_true_eq, not_or] at hpe
        rcases hd with ((h1 | h1) | h1) | h1
        · rw [h1]; rfl
        · rw [h1]; rfl
        · exact absurd h1 hpe.1
        · exact absurd h1 hpe.2
      rw [htw, List.map_cons, hslash, if_neg (by simp)]
      rfl

/-- In a non-special URL with an authority the serialized path is empty
or starts with a slash. -/
theorem nonSpecialPath_shape (after : List Char)
    (hafter : ∀ d, after.head? = some d → authEndNon d = true) :
    after.takeWhile (fun c => !pathEnd c) = [] ∨
      (after.takeWhile (fun c => !pathEnd c)).head? = some '/' := by
  cases after with
  | nil => exact Or.inl rfl
  | cons d t =>
    have hd := hafter d rfl
    by_cases hpe : pathEnd d = true
    · refine Or.inl ?_
      rw [List.takeWhile_cons, if_neg (by simp [hpe])]
    · have hslash : d = '/' := by
        simp only [authEndNon, Bool.or_eq_true, decide_eq_true_eq] at hd
        simp only [pathEnd, Bool.or_eq_true, decide_eq_true_eq, not_or] at hpe
        rcases hd with (h1 | h1) | h1
        · exact h1
        · exact absurd h1 hpe.1
        · exact absurd h1 hpe.2
      refine Or.inr ?_
      rw [List.takeWhile_cons, if_pos (by simp [hpe]), hslash]
      rfl

/-- The head of the remainder after an authority satisfies the authority
terminator predicate. -/
theorem after_head_authEnd (q : Char → Bool) (r : List Char) (d : Char)
    (hd : (r.dropWhile (fun c => !q c)).head? = some d) : q d = true := by
  have h0 := List.head?_dropWhile_not (fun c => !q c) r
  rw [hd] at h0
  simpa using h0

/-- Hosts and paths produced by `parseSpecialRest`. -/
theorem parseSpecialRest_spec (scheme : String) (rest : List Char) (p : UrlParts)
    (h : parseSpecialRest scheme rest = some p) :
    (p.hostname.toList.head? = some '[' ∨ ∀ c ∈ p.hostname.toList, c ≠ ':') ∧
    p.pathname.toList.head? = some '/' := by
  rw [parseSpecialRest] at h
  dsimp only at h
  split at h
  · exact Option.noConfusion h
  · rename_i host hauth
    obtain rfl := (Option.some.inj h).symm
    exact ⟨parseAuthority_spec false _ host hauth,
      specialPath_head _ (fun d hd => after_head_authEnd authEndSpecial _ d hd)⟩

/-- Hosts and paths produced by `parseFileRest`. -/
theorem parseFileRest_spec (rest : List Char) (p : UrlParts)
    (h : parseFileRest rest = some p) :
    p.hostname = "" ∨
    ((p.hostname.toList.head? = some '[' ∨ ∀ c ∈ p.hostname.toList, c ≠ ':') ∧
     p.pathname.toList.head? = some '/') := by
  rw [parseFileRest] at h
  split at h
  · dsimp only at h
    split at h
    · exact Option.noConfusion h
    · rename_i host hauth
      obtain rfl := (Option.some.inj h).symm
      exact Or.inr ⟨parseAuthority_spec true _ host hauth,
        specialPath_head _ (fun d hd => after_head_authEnd authEndSpecial _ d hd)⟩
  · obtain rfl := (Option.some.inj h).symm
    exact Or.inl rfl

/-- Hosts and paths produced by `parseNonSpecialRest`. -/
theorem parseNonSpecialRest_spec (scheme : String) (rest : List Char) (p : UrlParts)
    (h : parseNonSpecialRest scheme rest = some p) :
    p.hostname = "" ∨
    ((p.hostname.toList.head? = some '[' ∨ ∀ c ∈ p.hostname.toList, c ≠ ':') ∧
     (p.pathname.toList = [] ∨ p.pathname.toList.head? = some '/')) := by
  rw [parseNonSpecialRest] at h
  split at h
  · dsimp only at h
    split at h
    · exact Option.noConfusion h
    · rename_i host hauth
      obtain rfl := (Option.some.inj h).symm
      exact Or.inr ⟨parseAuthority_spec true _ host hauth,
        nonSpecialPath_shape _ (fun d hd => after_head_authEnd authEndNon _ d hd)⟩
  · obtain rfl := (Option.some.inj h).symm
    exact Or.inl rfl

/-- Every successful parse yields an empty hostname, or a hostname that
is bracketed or colon-free together with an empty-or-slash-headed
pathname. -/
theorem parseUrl_spec (url : String) (p : UrlParts) (h : parseUrl url = some p) :
    p.hostname = "" ∨
    ((p.hostname.toList.head? = some '[' ∨ ∀ c ∈ p.hostname.toList, c ≠ ':') ∧
     (p.pathname.toList = [] ∨ p.pathname.toList.head? = some '/')) := by
  rw [parseUrl] at h
  split at h
  · exact Option.noConfusion h
  · dsimp only at h
    split at h
    · rcases parseFileRest_spec _ _ h with h1 | ⟨h1, h2⟩
      · exact Or.inl h1
      · exact Or.inr ⟨h1, Or.inr h2⟩
    · split at h
      · obtain ⟨h1, h2⟩ := parseSpecialRest_spec _ _ _ h
        exact Or.inr ⟨h1, Or.inr h2⟩
      · exact parseNonSpecialRest_spec _ _ _ h

/-- Unfolding `normalizeUrl` on a successfully parsed URL. -/
theorem normalizeUrl_eq_of_parse (url : String) (u : UrlParts)
    (h : parseUrl url = some u) :
    normalizeUrl url = u.hostname ++ String.mk (normalizePathChars u.pathname.toList) := by
  rw [normalizeUrl, h]

/-- Unfolding `normalizeUrl` on an unparseable string. -/
theorem normalizeUrl_eq_of_no_parse (url : String) (h : parseUrl url = none) :
    normalizeUrl url = url := by
  rw [normalizeUrl, h]

/-- Unfolding `parseUrl` when the scheme split fails. -/
theorem parseUrl_eq_none_of_splitScheme (s : String)
    (h : splitScheme s.toList = none) : parseUrl s = none := by
  rw [parseUrl, h]

/-- Stripping one trailing slash and defaulting to `/` keeps a path that
was empty or slash-headed slash-headed. -/
theorem normalizePathChars_head (pl : List Char)
    (hshape : pl = [] ∨ pl.head? = some '/') :
    (normalizePathChars pl).head? = some '/' := by
  rw [normalizePathChars]
  rcases hshape with rfl | hh
  · rfl
  · cases pl with
    | nil => exact absurd hh (by simp)
    | cons c t =>
      have hc : c = '/' := by
        rw [List.head?_cons] at hh
        exact Option.some.inj hh
      subst hc
      by_cases hlast : ('/' :: t).getLast? = some '/'
      · rw [if_pos hlast]
        cases t with
        | nil => rfl
        | cons b t2 =>
          rw [List.dropLast_cons₂, if_neg (by simp)]
          rfl
      · rw [if_neg hlast, if_neg (by simp)]
        rfl

/-- A bracketed-or-colon-free hostname followed by a slash-headed path
never parses as a scheme again. -/
theorem splitScheme_host_path_none (host path : List Char)
    (hhost : host.head? = some '[' ∨ ∀ c ∈ host, c ≠ ':')
    (hpath : path.head? = some '/') :
    splitScheme (host ++ path) = none := by
  rcases hhost with hbr | hnc
  · cases host with
    | nil => exact absurd hbr (by simp)
    | cons c t =>
      have hc : c = '[' := by
        rw [List.head?_cons] at hbr
        exact Option.some.inj hbr
      subst hc
      apply splitScheme_eq_none
      rw [List.cons_append, List.dropWhile_cons, if_neg (by decide)]
      intro hcontra
      rw [List.head?_cons] at hcontra
      exact absurd hcontra (by decide)
  · apply splitScheme_eq_none
    apply head_dropWhile_append_ne_colon _ _ hnc
    cases path with
    | nil => exact absurd hpath (by simp)
    | cons c t =>
      have hc : c = '/' := by
        rw [List.head?_cons] at hpath
        exact Option.some.inj hpath
      subst hc
      rw [List.dropWhile_cons, if_neg (by decide)]
      intro hcontra
      rw [List.head?_cons] at hcontra
      exact absurd hcontra (by decide)

/-- C7 (counterexample): URL normalization is not idempotent on every
string: `a:b:c` parses as scheme `a` with opaque path `b:c`, normalizes
to `b:c`, which itself parses as scheme `b` with path `c` and normalizes
further to `c`. -/
theorem C7_normalize_idempotent_counterexample :
    normalizeUrl (normalizeUrl "a:b:c") ≠ normalizeUrl "a:b:c" := by decide

/-- C7 (amended): normalization is query-insensitive at the spec's
example, and idempotent for every string except possibly those that
parse as a URL with an empty hostname (opaque-path non-special URLs such
as `a:b:c`); for unparseable strings and URLs with a nonempty hostname,
`normalize (normalize u) = normalize u`. -/
theorem C7_normalize_idempotent_amended :
    normalizeUrl "https://x.com/a/?sid=123" = normalizeUrl "https://x.com/a" ∧
    ∀ u : String, normalizeUrl (normalizeUrl u) = normalizeUrl u ∨
      ∃ p, parseUrl u = some p ∧ p.hostname = "" := by
  constructor
  · decide
  · intro u
    cases hp : parseUrl u with
    | none =>
      have he := normalizeUrl_eq_of_no_parse u hp
      rw [he]
      exact Or.inl he
    | some parts =>
      by_cases hh : parts.hostname = ""
      · exact Or.inr ⟨parts, rfl, hh⟩
      · refine Or.inl ?_
        rcases parseUrl_spec u parts hp with hempty | ⟨hhost, hpath⟩
        · exact absurd hempty hh
        · have hnorm := normalizeUrl_eq_of_parse u parts hp
          have hsplit : splitScheme (normalizeUrl u).toList = none := by
            rw [hnorm, string_toList_append]
            exact splitScheme_host_path_none _ _ hhost
              (normalizePathChars_head _ hpath)
          exact normalizeUrl_eq_of_no_parse _ (parseUrl_eq_none_of_splitScheme _ hsplit)

/-- C10: URL normalization and domain derivation are total — on any
string that does not parse as a URL both return the input unchanged, so
a malformed URL is its own cache pattern and its own domain key (shown
for a cache write into an empty cache). -/
theorem C10_url_fallback_total (u : String) (h : parseUrl u = none) :
    normalizeUrl u = u ∧ getDomain u = u ∧
    ∀ (m : SemanticPageModel) (t : Int),
      cacheModel [] u m t =
        [{ url_pattern := u, domain := u, model := m, hit_count := 0,
           last_updated := t }] := by
  have h1 : normalizeUrl u = u := normalizeUrl_eq_of_no_parse u h
  have h2 : getDomain u = u := by rw [getDomain, h]
  refine ⟨h1, h2, ?_⟩
  intro m t
  rw [cacheModel]
  rw [if_neg (by simp), h1, h2]
  rfl

/-- C10 (witness): `x.com/a` has no scheme, so it does not parse; it is
its own normalized pattern and its own domain. -/
theorem C10_url_fallback_total_witness :
    parseUrl "x.com/a" = none ∧
    (normalizeUrl "x.com/a" = "x.com/a" ∧ getDomain "x.com/a" = "x.com/a" ∧
      ∀ (m : SemanticPageModel) (t : Int),
        cacheModel [] "x.com/a" m t =
          [{ url_pattern := "x.com/a", domain := "x.com/a", model := m,
             hit_count := 0, last_updated := t }]) :=
  ⟨by decide, C10_url_fallback_total "x.com/a" (by decide)⟩

/-- A parsed translator reply whose `key_data` carries 11 entries. -/
def elevenKeyData : List (String × String) :=
  [("k1", "v1"), ("k2", "v2"), ("k3", "v3"), ("k4", "v4"), ("k5", "v5"),
   ("k6", "v6"), ("k7", "v7"), ("k8", "v8"), ("k9", "v9"), ("k10", "v10"),
   ("k11", "v11")]

/-- Translator output carrying more key facts than the prompt asks for. -/
def oversizedParsed : ParsedModel :=
  { page_type := some .listing, title := none, task_status := none
    key_data := some elevenKeyData
    available_actions := none, warnings := none, navigation := none, forms := none }

/-- C6 (counterexample): the core does not enforce the 10-entry bound on
`key_data`: `buildModel` ingests an 11-entry mapping unchanged, so the
resulting model violates the claimed invariant. -/
theorem C6_key_data_bound_counterexample :
    ¬ ((buildModel "https://x.com/p" 0 oversizedParsed).key_data.length ≤ 10) := by
  decide

/-- C6 (amended): the ≤ 10 bound on `key_data` is a translator-side
request (stated only in the LLM prompt); the core's ingestion step
(`buildModel`, and the refresh pipeline that stores its result) adopts
`key_data` exactly as parsed, truncating nothing, so any bound holds only
if the translator obeys it. -/
theorem C6_key_data_bound_amended (url : String) (now : Int) (parsed : ParsedModel) :
    (buildModel url now parsed).key_data = parsed.key_data.getD [] ∧
    ∀ l, parsed.key_data = some l →
      (buildModel url now parsed).key_data.length = l.length := by
  refine ⟨rfl, ?_⟩
  intro l hl
  rw [buildModel]
  simp [hl]

/-- C6 (witness): the amended statement evaluated on the oversized
output. -/
theorem C6_key_data_bound_amended_witness :
    ((buildModel "https://x.com/p" 0 oversizedParsed).key_data =
      oversizedParsed.key_data.getD []) ∧
    oversizedParsed.key_data = some elevenKeyData ∧
    (buildModel "https://x.com/p" 0 oversizedParsed).key_data.length =
      elevenKeyData.length :=
  ⟨(C6_key_data_bound_amended "https://x.com/p" 0 oversizedParsed).1, rfl,
   (C6_key_data_bound_amended "https://x.com/p" 0 oversizedParsed).2 elevenKeyData rfl⟩

/-- `runTask` when the session lifecycle succeeds: a settled result and a
create/destroy event trace. -/
theorem runTask_ok (env : TaskEnv) (task : AgentTask) (sid : String)
    (hc : env.createSession = .ok sid) (hd : env.destroySession = .ok ()) :
    runTask env task =
      (.ok (match env.navigateResult with
            | .ok model =>
              { task_id := task.id, success := true
                output := some { page_state := model, key_data := model.key_data }
                steps_taken := 1, error := none }
            | .error e =>
              { task_id := task.id, success := false, output := none
                steps_taken := 0, error := some e }),
       [EngineEvent.createCalled, EngineEvent.destroyCalled sid]) := by
  rw [runTask, hc]
  dsimp only
  rw [hd]

/-- Three tasks for the parallel-isolation scenario. -/
def parallelTasks : List AgentTask :=
  [{ id := "t1", goal := "g1", url := "https://a.com" },
   { id := "t2", goal := "g2", url := "https://b.com" },
   { id := "t3", goal := "g3", url := "https://c.com" }]

/-- A driver for which the second task's `createSession` rejects while
everything else succeeds. -/
def envCreateFails (t : AgentTask) : TaskEnv :=
  if t.id = "t2" then
    { createSession := .error "browser crashed"
      navigateResult := .ok (fallbackModel t.url 0)
      destroySession := .ok () }
  else
    { createSession := .ok ("sess-" ++ t.id)
      navigateResult := .ok (fallbackModel t.url 0)
      destroySession := .ok () }

/-- C4 (counterexample): `createSession` runs outside `runTask`'s `try`,
so its rejection rejects that task's promise and `Promise.all` rejects
the whole batch: with three tasks whose second session creation fails,
`runParallel` yields no per-task results at all, contradicting the claim
that every per-task step's failure is captured in that task's result
while siblings still return theirs. -/
theorem C4_parallel_isolation_counterexample :
    runParallel envCreateFails parallelTasks = .error "browser crashed" := by
  decide

/-- C4 (amended): provided every task's session creation and teardown
succeed, `run_parallel` returns exactly one result per input task in
input order; a task whose navigation fails yields a result marked failed
carrying the captured error while sibling tasks still return their own
results, and each task's session teardown is invoked regardless of its
navigation outcome.  (A rejection of `createSession` or `destroySession`
itself instead rejects the whole batch.) -/
theorem C4_parallel_isolation_amended (env : AgentTask → TaskEnv)
    (tasks : List AgentTask)
    (h : ∀ t ∈ tasks, (∃ sid, (env t).createSession = .ok sid) ∧
      (env t).destroySession = .ok ()) :
    ∃ rs, runParallel env tasks = .ok rs ∧ rs.length = tasks.length ∧
      List.Forall₂ (fun (t : AgentTask) (r : TaskResult) =>
        r.task_id = t.id ∧
        (∀ m, (env t).navigateResult = .ok m →
          r.success = true ∧
          r.output = some { page_state := m, key_data := m.key_data } ∧
          r.steps_taken = 1 ∧ r.error = none) ∧
        (∀ e, (env t).navigateResult = .error e →
          r.success = false ∧ r.output = none ∧ r.steps_taken = 0 ∧
          r.error = some e)) tasks rs ∧
      ∀ t ∈ tasks, ∀ sid, (env t).createSession = .ok sid →
        EngineEvent.destroyCalled sid ∈ (runTask (env t) t).2 := by
  induction tasks with
  | nil =>
    exact ⟨[], rfl, rfl, List.Forall₂.nil, by simp⟩
  | cons t ts ih =>
    obtain ⟨⟨sid, hcs⟩, hdt⟩ := h t (List.mem_cons_self _ _)
    obtain ⟨rs, hrs, hlen, hfa, hdest⟩ :=
      ih fun x hx => h x (List.mem_cons_of_mem _ hx)
    have hrt := runTask_ok (env t) t sid hcs hdt
    refine ⟨(match (env t).navigateResult with
             | .ok model =>
               { task_id := t.id, success := true
                 output := some { page_state := model, key_data := model.key_data }
                 steps_taken := 1, error := none }
             | .error e =>
               { task_id := t.id, success := false, output := none
                 steps_taken := 0, error := some e }) :: rs, ?_, ?_, ?_, ?_⟩
    · rw [runParallel, List.map_cons, hrt]
      dsimp only [promiseAll]
      rw [show promiseAll (List.map (fun x => (runTask (env x) x).1) ts) = .ok rs from hrs]
    · simp [hlen]
    · refine List.Forall₂.cons ?_ hfa
      refine ⟨?_, ?_, ?_⟩
      · cases hnav : (env t).navigateResult <;> rfl
      · intro m hm
        rw [hm]
        exact ⟨rfl, rfl, rfl, rfl⟩
      · intro e he
        rw [he]
        exact ⟨rfl, rfl, rfl, rfl⟩
    · intro x hx sid2 hsid2
      rcases List.mem_cons.mp hx with rfl | hx2
      · rw [hrt]
        have : sid2 = sid := by
          rw [hcs] at hsid2
          exact (Except.ok.inj hsid2).symm
        rw [this]
        simp
      · exact hdest x hx2 sid2 hsid2

/-- A driver for which the second task's navigation fails while session
lifecycle operations all succeed. -/
def envNavFails (t : AgentTask) : TaskEnv :=
  if t.id = "t2" then
    { createSession := .ok ("sess-" ++ t.id)
      navigateResult := .error "navigation blocked"
      destroySession := .ok () }
  else
    { createSession := .ok ("sess-" ++ t.id)
      navigateResult := .ok (fallbackModel t.url 0)
      destroySession := .ok () }

/-- C4 (witness): the spec's three-task scenario — the second task's
navigation fails — satisfies the amended theorem's hypotheses and its
conclusion. -/
theorem C4_parallel_isolation_amended_witness :
    (∀ t ∈ parallelTasks, (∃ sid, (envNavFails t).createSession = .ok sid) ∧
      (envNavFails t).destroySession = .ok ()) ∧
    (∃ rs, runParallel envNavFails parallelTasks = .ok rs ∧
      rs.length = parallelTasks.length ∧
      List.Forall₂ (fun (t : AgentTask) (r : TaskResult) =>
        r.task_id = t.id ∧
        (∀ m, (envNavFails t).navigateResult = .ok m →
          r.success = true ∧
          r.output = some { page_state := m, key_data := m.key_data } ∧
          r.steps_taken = 1 ∧ r.error = none) ∧
        (∀ e, (envNavFails t).navigateResult = .error e →
          r.success = false ∧ r.output = none ∧ r.steps_taken = 0 ∧
          r.error = some e)) parallelTasks rs ∧
      ∀ t ∈ parallelTasks, ∀ sid, (envNavFails t).createSession = .ok sid →
        EngineEvent.destroyCalled sid ∈ (runTask (envNavFails t) t).2) := by
  have hyp : ∀ t ∈ parallelTasks, (∃ sid, (envNavFails t).createSession = .ok sid) ∧
      (envNavFails t).destroySession = .ok () := by
    intro t ht
    simp only [parallelTasks, List.mem_cons, List.not_mem_nil, or_false] at ht
    rcases ht with rfl | rfl | rfl
    · exact ⟨⟨"sess-t1", rfl⟩, rfl⟩
    · exact ⟨⟨"sess-t2", rfl⟩, rfl⟩
    · exact ⟨⟨"sess-t3", rfl⟩, rfl⟩
  exact ⟨hyp, C4_parallel_isolation_amended envNavFails parallelTasks hyp⟩

/-! ## Executor state-tracking lemmas (claims C5, C8, C9) -/

/-- `popUrl` only consumes script. -/
theorem popUrl_core (s : ExecState) :
    (popUrl s).2.memory = s.memory ∧ (popUrl s).2.pageModels = s.pageModels ∧
    (popUrl s).2.now = s.now := by
  rw [popUrl]; cases s.script.urls <;> exact ⟨rfl, rfl, rfl⟩

/-- `popCaptcha` only consumes script. -/
theorem popCaptcha_core (s : ExecState) :
    (popCaptcha s).2.memory = s.memory ∧ (popCaptcha s).2.pageModels = s.pageModels ∧
    (popCaptcha s).2.now = s.now := by
  rw [popCaptcha]; cases s.script.captchas <;> exact ⟨rfl, rfl, rfl⟩

/-- `popHtml` only consumes script. -/
theorem popHtml_core (s : ExecState) :
    (popHtml s).2.memory = s.memory ∧ (popHtml s).2.pageModels = s.pageModels ∧
    (popHtml s).2.now = s.now := by
  rw [popHtml]; cases s.script.htmls <;> exact ⟨rfl, rfl, rfl⟩

/-- `popTree` only consumes script. -/
theorem popTree_core (s : ExecState) :
    (popTree s).2.memory = s.memory ∧ (popTree s).2.pageModels = s.pageModels ∧
    (popTree s).2.now = s.now := by
  rw [popTree]; cases s.script.trees <;> exact ⟨rfl, rfl, rfl⟩

/-- `engineClick` only consumes script. -/
theorem engineClick_core (s : ExecState) :
    (engineClick s).2.memory = s.memory ∧ (engineClick s).2.pageModels = s.pageModels ∧
    (engineClick s).2.now = s.now := by
  rw [engineClick]; cases s.script.clicks <;> exact ⟨rfl, rfl, rfl⟩

/-- `engineFill` only consumes script. -/
theorem engineFill_core (s : ExecState) :
    (engineFill s).2.memory = s.memory ∧ (engineFill s).2.pageModels = s.pageModels ∧
    (engineFill s).2.now = s.now := by
  rw [engineFill]; cases s.script.fills <;> exact ⟨rfl, rfl, rfl⟩

/-- `engineNavigate` only consumes script. -/
theorem engineNavigate_core (s : ExecState) :
    (engineNavigate s).2.memory = s.memory ∧
    (engineNavigate s).2.pageModels = s.pageModels ∧
    (engineNavigate s).2.now = s.now := by
  rw [engineNavigate]; cases s.script.navs <;> exact ⟨rfl, rfl, rfl⟩

/-- `popAnalysis` only consumes script. -/
theorem popAnalysis_core (s : ExecState) (url : String) :
    (popAnalysis s url).2.memory = s.memory ∧
    (popAnalysis s url).2.pageModels = s.pageModels ∧
    (popAnalysis s url).2.now = s.now := by
  rw [popAnalysis]; cases s.script.analyses <;> exact ⟨rfl, rfl, rfl⟩

/-- The field-map fill loop only consumes script. -/
theorem fillFieldMap_core (entries : List (String × String)) (s : ExecState)
    (params : List (String × String)) :
    (fillFieldMap s entries params).2.memory = s.memory ∧
    (fillFieldMap s entries params).2.pageModels = s.pageModels ∧
    (fillFieldMap s entries params).2.now = s.now := by
  induction entries generalizing s with
  | nil => exact ⟨rfl, rfl, rfl⟩
  | cons e rest ih =>
    obtain ⟨pn, sel⟩ := e
    rw [fillFieldMap]
    cases hv : (params.find? (fun p => p.1 = pn)).map (·.2) with
    | none => exact ih s
    | some v =>
      dsimp only
      by_cases hsel : sel ≠ ""
      · rw [if_pos hsel]
        rcases hef : engineFill s with ⟨r, s2⟩
        have hc := engineFill_core s
        rw [hef] at hc
        cases r with
        | error e2 => exact hc
        | ok u =>
          obtain ⟨h1, h2, h3⟩ := ih s2
          exact ⟨h1.trans hc.1, h2.trans hc.2.1, h3.trans hc.2.2⟩
      · rw [if_neg hsel]
        exact ih s

/-- `performAction` reads the store but never writes it: only script is
consumed. -/
theorem performAction_core (s : ExecState) (action : ActionDefinition)
    (params : List (String × String)) (domain : String) :
    (performAction s action params domain).2.memory = s.memory ∧
    (performAction s action params domain).2.pageModels = s.pageModels ∧
    (performAction s action params domain).2.now = s.now := by
  have htier2 : ∀ s' : ExecState,
      ((match getBestSelector s'.memory.selector_library domain action.name with
        | some _remembered => engineClick s'
        | none => (.error (noSelectorMsg action.name), s')) :
          Except String Unit × ExecState).2.memory = s'.memory ∧
      (match getBestSelector s'.memory.selector_library domain action.name with
        | some _remembered => engineClick s'
        | none => (.error (noSelectorMsg action.name), s')).2.pageModels = s'.pageModels ∧
      (match getBestSelector s'.memory.selector_library domain action.name with
        | some _remembered => engineClick s'
        | none => (.error (noSelectorMsg action.name), s')).2.now = s'.now := by
    intro s'
    cases getBestSelector s'.memory.selector_library domain action.name with
    | some sel => exact engineClick_core s'
    | none => exact ⟨rfl, rfl, rfl⟩
  rw [performAction]
  cases hai : action._internal with
  | none => exact htier2 s
  | some internal =>
    dsimp only
    by_cases h1 : internal.type = InternalType.click ∧ (strTruthy internal.selector).isSome
    · rw [if_pos h1]
      exact engineClick_core s
    · rw [if_neg h1]
      by_cases h2 : (internal.type = InternalType.fill ∨ internal.type = InternalType.form) ∧
          internal.field_map.isSome
      · rw [if_pos h2]
        rcases hff : fillFieldMap s (internal.field_map.getD []) params with ⟨r, s2⟩
        have hc := fillFieldMap_core (internal.field_map.getD []) s params
        rw [hff] at hc
        cases r with
        | error e => exact hc
        | ok u =>
          dsimp only
          cases strTruthy internal.submit_selector with
          | some sel =>
            dsimp only
            obtain ⟨g1, g2, g3⟩ := engineClick_core s2
            exact ⟨g1.trans hc.1, g2.trans hc.2.1, g3.trans hc.2.2⟩
          | none =>
            dsimp only
            obtain ⟨g1, g2, g3⟩ := htier2 s2
            exact ⟨g1.trans hc.1, g2.trans hc.2.1, g3.trans hc.2.2⟩
      · rw [if_neg h2]
        cases strTruthy internal.selector with
        | some sel =>
          dsimp only
          by_cases h3 : internal.type = InternalType.navigate
          · rw [if_pos h3]
            by_cases h4 : sel.startsWith "http://" ∨ sel.startsWith "https://"
            · rw [if_pos h4]; exact engineNavigate_core s
            · rw [if_neg h4]; exact engineClick_core s
          · rw [if_neg h3]; exact htier2 s
        | none => exact htier2 s

/-- The notes currently stored for a domain (empty when the domain has no
profile row). -/
def profileNotes (profiles : List SiteProfile) (d : String) : List String :=
  ((profiles.find? (fun p => p.domain = d)).map (·.notes)).getD []

/-- Lookup after the in-place branch of a profile upsert. -/
theorem find?_upsert_profiles (profiles : List SiteProfile) (domain : String)
    (row : SiteProfile) (hrow : row.domain = domain) (d : String) :
    (profiles.map fun p => if p.domain = domain then row else p).find?
        (fun p => p.domain = d) =
      if domain = d then
        (profiles.find? (fun p => p.domain = domain)).map (fun _ => row)
      else profiles.find? fun p => p.domain = d := by
  induction profiles with
  | nil => by_cases hd : domain = d <;> simp [hd]
  | cons p ps ih =>
    rw [List.map_cons]
    by_cases hp : p.domain = domain
    · rw [if_pos hp]
      by_cases hd : domain = d
      · rw [if_pos hd]
        rw [List.find?_cons_of_pos _ (by simp [hrow, hd]),
          List.find?_cons_of_pos _ (by simp [hp])]
        rfl
      · rw [if_neg hd]
        rw [List.find?_cons_of_neg _ (by simp [hrow]; exact hd),
          List.find?_cons_of_neg _ (by simp [hp]; exact hd)]
        rw [ih, if_neg hd]
    · rw [if_neg hp]
      by_cases hpd : p.domain = d
      · have hd : ¬ (domain = d) := fun he => hp (hpd.trans he.symm)
        rw [if_neg hd]
        rw [List.find?_cons_of_pos _ (by simp [hpd]),
          List.find?_cons_of_pos _ (by simp [hpd])]
      · rw [List.find?_cons_of_neg _ (by simp [hpd])]
        by_cases hd : domain = d
        · rw [if_pos hd]
          rw [List.find?_cons_of_neg _ (by simp [hp])]
          rw [ih, if_pos hd]
        · rw [if_neg hd]
          rw [List.find?_cons_of_neg _ (by simp [hpd])]
          rw [ih, if_neg hd]

/-- A profile upsert whose row keeps the domain's current notes changes
no domain's stored notes. -/
theorem profileNotes_upsert (profiles : List SiteProfile) (domain : String)
    (row : SiteProfile) (hrow : row.domain = domain)
    (hnotes : row.notes = profileNotes profiles domain) (d : String) :
    profileNotes
      (if profiles.any (fun p => p.domain = domain) then
        profiles.map fun p => if p.domain = domain then row else p
      else profiles ++ [row]) d = profileNotes profiles d := by
  by_cases hany : profiles.any (fun p => p.domain = domain) = true
  · rw [if_pos hany, profileNotes, profileNotes,
      find?_upsert_profiles profiles domain row hrow d]
    by_cases hd : domain = d
    · rw [if_pos hd]
      subst hd
      cases hf : profiles.find? (fun p => p.domain = domain) with
      | none => rfl
      | some q =>
        simp [hnotes, profileNotes, hf]
    · rw [if_neg hd]
  · rw [if_neg hany, profileNotes, profileNotes, List.find?_append]
    cases hf : profiles.find? (fun p => p.domain = d) with
    | none =>
      rw [Option.none_or]
      by_cases hd : domain = d
      · subst hd
        rw [List.find?_cons_of_pos _ (by simp [hrow])]
        simp [hnotes, profileNotes, hf]
      · rw [List.find?_cons_of_neg _ (by simp [hrow]; exact hd)]
        rfl
    | some q => rfl

/-- `updateSiteProfile` called with no note (the refresh pipeline's form)
never changes any domain's stored notes. -/
theorem updateSiteProfile_none_notes (profiles : List SiteProfile)
    (domain pageType : String) (now : Int) (d : String) :
    profileNotes (updateSiteProfile profiles domain pageType none now) d =
      profileNotes profiles d := by
  rw [updateSiteProfile]
  exact profileNotes_upsert profiles domain _ rfl rfl d

/-- The refresh pipeline is read-only for the selector library and for
the stored site notes, and does not advance the clock. -/
theorem refreshModel_core (s : ExecState) (sid : String) :
    (refreshModel s sid).2.memory.selector_library = s.memory.selector_library ∧
    (∀ d, profileNotes (refreshModel s sid).2.memory.site_profiles d =
      profileNotes s.memory.site_profiles d) ∧
    (refreshModel s sid).2.now = s.now := by
  rw [refreshModel]
  rcases hpu : popUrl s with ⟨url, s1⟩
  have hc1 := popUrl_core s
  rw [hpu] at hc1
  dsimp only at hc1
  dsimp only
  rcases hpc : popCaptcha s1 with ⟨cap, s2⟩
  have hc2 := popCaptcha_core s1
  rw [hpc] at hc2
  dsimp only at hc2
  dsimp only
  have hm2 : s2.memory = s.memory := hc2.1.trans hc1.1
  have hn2 : s2.now = s.now := hc2.2.2.trans hc1.2.2
  cases cap with
  | error e =>
    exact ⟨by rw [hm2], fun d => by rw [hm2], hn2⟩
  | ok captcha =>
  dsimp only
  cases captcha with
  | true =>
    rw [if_pos rfl]
    exact ⟨by rw [hm2], fun d => by rw [hm2], hn2⟩
  | false =>
    rw [if_neg (by simp)]
    rcases hgc : getCachedModel s2.memory.page_model_cache url s2.now with ⟨cached, cache2⟩
    dsimp only
    cases cached with
    | some model =>
      dsimp only
      exact ⟨by rw [hm2], fun d => by rw [hm2], hn2⟩
    | none =>
      dsimp only
      rcases hph : popHtml s2 with ⟨html, s3⟩
      have hc3 := popHtml_core s2
      rw [hph] at hc3
      dsimp only at hc3
      dsimp only
      rcases hpt : popTree s3 with ⟨tree, s4⟩
      have hc4 := popTree_core s3
      rw [hpt] at hc4
      dsimp only at hc4
      dsimp only
      rcases hpa : popAnalysis s4 url with ⟨model, s5⟩
      have hc5 := popAnalysis_core s4 url
      rw [hpa] at hc5
      dsimp only at hc5
      dsimp only
      have hm5 : s5.memory = s.memory :=
        (hc5.1.trans (hc4.1.trans hc3.1)).trans hm2
      have hn5 : s5.now = s.now :=
        (hc5.2.2.trans (hc4.2.2.trans hc3.2.2)).trans hn2
      refine ⟨by rw [hm5], fun d => ?_, hn5⟩
      rw [updateSiteProfile_none_notes, hm5]

/-- `getPageState` is read-only for the selector library and the stored
notes. -/
theorem getPageState_core (s : ExecState) (sid : String) :
    (getPageState s sid).2.memory.selector_library = s.memory.selector_library ∧
    (∀ d, profileNotes (getPageState s sid).2.memory.site_profiles d =
      profileNotes s.memory.site_profiles d) ∧
    (getPageState s sid).2.now = s.now := by
  rw [getPageState]
  cases lookupModel s.pageModels sid with
  | some m => exact ⟨rfl, fun d => rfl, rfl⟩
  | none => exact refreshModel_core s sid

/-- `learnFromAction` does nothing for an action without an execution
hint. -/
theorem learnFromAction_nohint (lib : List SelectorRecord)
    (domain actionName : String) (action : ActionDefinition) (success : Bool)
    (now : Int) (h : action._internal = none) :
    learnFromAction lib domain actionName action success now = lib := by
  rw [learnFromAction, h]

/-- C8: when the action resolved by `executeAction` carries no execution
hint (so execution goes through the learned-selector fallback tier), no
selector outcome is recorded on any path — success, post-action CAPTCHA,
or failure — leaving the selector library exactly as it was. -/
theorem C8_no_learning_without_hint (s : ExecState) (sid actionName : String)
    (params : List (String × String)) (model : SemanticPageModel) (s1 : ExecState)
    (action : ActionDefinition)
    (h1 : getPageState s sid = (.ok model, s1))
    (h2 : model.available_actions.find? (fun a => a.name = actionName) = some action)
    (h3 : action._internal = none) :
    (executeAction s sid actionName params).2.memory.selector_library =
      s.memory.selector_library := by
  have hgps := getPageState_core s sid
  rw [h1] at hgps
  dsimp only at hgps
  rw [executeAction, h1]
  dsimp only
  rw [h2]
  dsimp only
  rcases hpu : popUrl s1 with ⟨urlBefore, s2⟩
  have hc2 := popUrl_core s1
  rw [hpu] at hc2
  dsimp only at hc2
  dsimp only
  rcases hpf : performAction s2 action params (getDomain urlBefore) with ⟨r, s3⟩
  have hc3 := performAction_core s2 action params (getDomain urlBefore)
  rw [hpf] at hc3
  dsimp only at hc3
  have hl3 : s3.memory.selector_library = s.memory.selector_library :=
    (congrArg MemoryState.selector_library (hc3.1.trans hc2.1)).trans hgps.1
  cases r with
  | error e =>
    dsimp only
    rw [learnFromAction_nohint _ _ _ _ _ _ h3]
    exact hl3
  | ok u =>
    dsimp only
    rcases hcap : popCaptcha s3 with ⟨cap, s4⟩
    have hc4 := popCaptcha_core s3
    rw [hcap] at hc4
    dsimp only at hc4
    have hl4 : s4.memory.selector_library = s.memory.selector_library :=
      (congrArg MemoryState.selector_library hc4.1).trans hl3
    cases cap with
    | error e =>
      dsimp only
      rw [learnFromAction_nohint _ _ _ _ _ _ h3]
      exact hl4
    | ok captcha =>
    dsimp only
    cases captcha with
    | true =>
      rw [if_pos rfl]
      exact hl4
    | false =>
      rw [if_neg (by simp)]
      rcases hpu2 : popUrl s4 with ⟨urlAfter, s5⟩
      have hc5 := popUrl_core s4
      rw [hpu2] at hc5
      dsimp only at hc5
      dsimp only
      have hl5 : s5.memory.selector_library = s.memory.selector_library :=
        (congrArg MemoryState.selector_library hc5.1).trans hl4
      by_cases hu : urlAfter ≠ urlBefore
      · rw [if_pos hu]
        rcases hrm : refreshModel
            { s5 with memory := { s5.memory with
              page_model_cache := invalidateCache s5.memory.page_model_cache
                (getDomain urlBefore) } } sid with ⟨res, s7⟩
        have hc7 := refreshModel_core
          { s5 with memory := { s5.memory with
            page_model_cache := invalidateCache s5.memory.page_model_cache
              (getDomain urlBefore) } } sid
        rw [hrm] at hc7
        dsimp only at hc7
        cases res with
        | error e =>
          dsimp only
          rw [learnFromAction_nohint _ _ _ _ _ _ h3]
          exact hc7.1.trans hl5
        | ok newModel =>
          dsimp only
          rw [learnFromAction_nohint _ _ _ _ _ _ h3]
          exact hc7.1.trans hl5
      · rw [if_neg hu]
        rcases hrm : refreshModel s5 sid with ⟨res, s7⟩
        have hc7 := refreshModel_core s5 sid
        rw [hrm] at hc7
        dsimp only at hc7
        cases res with
        | error e =>
          dsimp only
          rw [learnFromAction_nohint _ _ _ _ _ _ h3]
          exact hc7.1.trans hl5
        | ok newModel =>
          dsimp only
          rw [learnFromAction_nohint _ _ _ _ _ _ h3]
          exact hc7.1.trans hl5

/-- The hint-less raw-extraction action offered by the fallback model. -/
def hintlessAction : ActionDefinition :=
  { name := "extract_raw", description := "Extract raw text content from the page"
    parameters := [], returns := "Raw text content of the page", _internal := none }

/-- A session whose current model is the fallback model (its only action
carries no hint) over an empty store. -/
def c8State : ExecState :=
  { script := { urls := ["https://x.com/p"], captchas := [], htmls := [], trees := [],
                clicks := [], fills := [], navs := [], analyses := [] }
    memory := { site_knowledge := [], page_model_cache := [], selector_library := [],
                site_profiles := [] }
    pageModels := [("sess", fallbackModel "https://x.com/p" 0)]
    now := 99 }

/-- C8 (witness): executing the hint-less action on the concrete state
leaves the (empty) selector library untouched. -/
theorem C8_no_learning_without_hint_witness :
    (getPageState c8State "sess" = (.ok (fallbackModel "https://x.com/p" 0), c8State) ∧
     (fallbackModel "https://x.com/p" 0).available_actions.find?
        (fun a => a.name = "extract_raw") = some hintlessAction ∧
     hintlessAction._internal = none) ∧
    (executeAction c8State "sess" "extract_raw" []).2.memory.selector_library =
      c8State.memory.selector_library :=
  ⟨⟨by decide, by decide, rfl⟩,
   C8_no_learning_without_hint c8State "sess" "extract_raw" []
     (fallbackModel "https://x.com/p" 0) c8State hintlessAction
     (by decide) (by decide) rfl⟩

/-- C5 (amended): when low-level execution throws — the action's own
click/fill/navigate rejecting, or the post-action CAPTCHA re-check
rejecting — the catch block runs the learning step with success=false
(which touches the hinted, field-map and submit selectors only when a
hint is present and records nothing otherwise), and returns a failure
result whose message embeds the original error and whose next actions
are the pre-action model's; it does NOT append a transition note — no
domain's stored notes change on the failure path. -/
theorem C5_failure_path_amended (s : ExecState) (sid actionName : String)
    (params : List (String × String)) (model : SemanticPageModel)
    (s1 : ExecState) (action : ActionDefinition) (u : String) (s2 s3 : ExecState)
    (e : String)
    (h1 : getPageState s sid = (.ok model, s1))
    (h2 : model.available_actions.find? (fun a => a.name = actionName) = some action)
    (h3 : popUrl s1 = (u, s2))
    (h4 : performAction s2 action params (getDomain u) = (.error e, s3) ∨
          (∃ s3a, performAction s2 action params (getDomain u) = (.ok (), s3a) ∧
            popCaptcha s3a = (.error e, s3))) :
    executeAction s sid actionName params =
      (.ok (errorResult ("Action '" ++ actionName ++ "' failed: " ++ e) model),
       { s3 with memory := { s3.memory with
         selector_library := learnFromAction s3.memory.selector_library
           (getDomain u) actionName action false s3.now } }) ∧
    ∀ d, profileNotes (executeAction s sid actionName params).2.memory.site_profiles d =
      profileNotes s.memory.site_profiles d := by
  have hgps := getPageState_core s sid
  rw [h1] at hgps
  dsimp only at hgps
  have hc2 := popUrl_core s1
  rw [h3] at hc2
  dsimp only at hc2
  rcases h4 with h4 | ⟨s3a, hok, hcap⟩
  · have hc3 := performAction_core s2 action params (getDomain u)
    rw [h4] at hc3
    dsimp only at hc3
    have hmain : executeAction s sid actionName params =
        (.ok (errorResult ("Action '" ++ actionName ++ "' failed: " ++ e) model),
         { s3 with memory := { s3.memory with
           selector_library := learnFromAction s3.memory.selector_library
             (getDomain u) actionName action false s3.now } }) := by
      rw [executeAction, h1]
      dsimp only
      rw [h2]
      dsimp only
      rw [h3]
      dsimp only
      rw [h4]
    refine ⟨hmain, fun d => ?_⟩
    rw [hmain]
    dsimp only
    have hp3 : s3.memory.site_profiles = s1.memory.site_profiles :=
      congrArg MemoryState.site_profiles (hc3.1.trans hc2.1)
    rw [hp3]
    exact hgps.2.1 d
  · have hc3 := performAction_core s2 action params (getDomain u)
    rw [hok] at hc3
    dsimp only at hc3
    have hc4 := popCaptcha_core s3a
    rw [hcap] at hc4
    dsimp only at hc4
    have hmain : executeAction s sid actionName params =
        (.ok (errorResult ("Action '" ++ actionName ++ "' failed: " ++ e) model),
         { s3 with memory := { s3.memory with
           selector_library := learnFromAction s3.memory.selector_library
             (getDomain u) actionName action false s3.now } }) := by
      rw [executeAction, h1]
      dsimp only
      rw [h2]
      dsimp only
      rw [h3]
      dsimp only
      rw [hok]
      dsimp only
      rw [hcap]
    refine ⟨hmain, fun d => ?_⟩
    rw [hmain]
    dsimp only
    have hp3 : s3.memory.site_profiles = s1.memory.site_profiles :=
      congrArg MemoryState.site_profiles (hc4.1.trans (hc3.1.trans hc2.1))
    rw [hp3]
    exact hgps.2.1 d

/-- A click-hinted login action. -/
def c5Action : ActionDefinition :=
  { name := "login_click", description := "Click the login button", parameters := []
    returns := "Login result"
    _internal := some { type := .click, selector := some "#login-btn",
                        field_map := none, submit_selector := none } }

/-- The pre-action login page model offering only `login_click`. -/
def c5Model : SemanticPageModel :=
  { url := "https://x.com/login", page_type := .login, title := "Login"
    task_status := "awaiting login", key_data := []
    available_actions := [c5Action], warnings := [], navigation := [], forms := []
    timestamp := 0 }

/-- A session on the login page whose next click rejects. -/
def c5State : ExecState :=
  { script := { urls := ["https://x.com/login"], captchas := [], htmls := [], trees := [],
                clicks := [Except.error "element not found"], fills := [], navs := [],
                analyses := [] }
    memory := { site_knowledge := [], page_model_cache := [], selector_library := [],
                site_profiles := [] }
    pageModels := [("sess", c5Model)], now := 50 }

/-- `c5State` after the pre-action URL read. -/
def c5State2 : ExecState :=
  { c5State with script := { c5State.script with urls := [] } }

/-- `c5State2` after the failing click. -/
def c5State3 : ExecState :=
  { c5State2 with script := { c5State2.script with clicks := [] } }

/-- C5 (counterexample): a click that throws makes `executeAction` record
the failed selector outcome and return the failure result — but the site
profile stays empty: no transition note is appended on the failure path,
contradicting the claim that step 7's profile note is written with
success=false. -/
theorem C5_failure_path_counterexample :
    ((executeAction c5State "sess" "login_click" []).1.toOption.map
        (fun r => (r.success, r.error)) =
      some (false, some "Action 'login_click' failed: element not found")) ∧
    (executeAction c5State "sess" "login_click" []).2.memory.selector_library =
      [{ domain := "x.com", action_name := "login_click", selector := "#login-btn",
         success_count := 0, fail_count := 1, last_used := 50 }] ∧
    (executeAction c5State "sess" "login_click" []).2.memory.site_profiles = [] := by
  decide

/-- A session on the login page whose click succeeds but whose post-action
CAPTCHA re-check rejects. -/
def c5CapState : ExecState :=
  { script := { urls := ["https://x.com/login"],
                captchas := [Except.error "captcha check failed"], htmls := [],
                trees := [], clicks := [Except.ok ()], fills := [], navs := [],
                analyses := [] }
    memory := { site_knowledge := [], page_model_cache := [], selector_library := [],
                site_profiles := [] }
    pageModels := [("sess", c5Model)], now := 50 }

/-- `c5CapState` after the pre-action URL read. -/
def c5CapState2 : ExecState :=
  { c5CapState with script := { c5CapState.script with urls := [] } }

/-- `c5CapState2` after the successful click. -/
def c5CapState3 : ExecState :=
  { c5CapState2 with script := { c5CapState2.script with clicks := [] } }

/-- `c5CapState3` after the rejecting CAPTCHA re-check. -/
def c5CapState4 : ExecState :=
  { c5CapState3 with script := { c5CapState3.script with captchas := [] } }

/-- C5 (witness): the amended theorem instantiated at a concrete run whose
click succeeds but whose post-action CAPTCHA re-check rejects — the catch
learns success=false and returns the original message. -/
theorem C5_failure_path_amended_witness :
    (getPageState c5CapState "sess" = (.ok c5Model, c5CapState) ∧
     c5Model.available_actions.find? (fun a => a.name = "login_click") = some c5Action ∧
     popUrl c5CapState = ("https://x.com/login", c5CapState2) ∧
     performAction c5CapState2 c5Action [] (getDomain "https://x.com/login") =
       (.ok (), c5CapState3) ∧
     popCaptcha c5CapState3 = (.error "captcha check failed", c5CapState4)) ∧
    (executeAction c5CapState "sess" "login_click" [] =
      (.ok (errorResult "Action 'login_click' failed: captcha check failed" c5Model),
       { c5CapState4 with memory := { c5CapState4.memory with
         selector_library := learnFromAction c5CapState4.memory.selector_library
           (getDomain "https://x.com/login") "login_click" c5Action false
           c5CapState4.now } }) ∧
     ∀ d, profileNotes
        (executeAction c5CapState "sess" "login_click" []).2.memory.site_profiles d =
       profileNotes c5CapState.memory.site_profiles d) :=
  ⟨⟨by decide, by decide, by decide, by decide, by decide⟩,
   C5_failure_path_amended c5CapState "sess" "login_click" [] c5Model c5CapState c5Action
     "https://x.com/login" c5CapState2 c5CapState4 "captcha check failed"
     (by decide) (by decide) (by decide)
     (Or.inr ⟨c5CapState3, by decide, by decide⟩)⟩

/-- C9: when the driver reports a CAPTCHA, `refreshModel` short-circuits
to the fixed CAPTCHA model without touching the store or the per-session
model map — so a subsequent `getPageState` still returns the session's
previous model rather than the CAPTCHA model. -/
theorem C9_captcha_refresh_no_store_write (s : ExecState) (sid u : String)
    (restU : List String) (caps : List (Except String Bool))
    (h1 : s.script.urls = u :: restU)
    (h2 : s.script.captchas = .ok true :: caps) :
    refreshModel s sid =
      (.ok (buildCaptchaModel u s.now),
       { s with script := { s.script with urls := restU, captchas := caps } }) ∧
    (refreshModel s sid).2.memory = s.memory ∧
    (refreshModel s sid).2.pageModels = s.pageModels ∧
    ∀ prev, lookupModel s.pageModels sid = some prev →
      (getPageState (refreshModel s sid).2 sid).1 = .ok prev := by
  have hmain : refreshModel s sid =
      (.ok (buildCaptchaModel u s.now),
       { s with script := { s.script with urls := restU, captchas := caps } }) := by
    rw [refreshModel, popUrl, h1]
    dsimp only
    rw [popCaptcha]
    dsimp only
    rw [h2]
    dsimp only
    rw [if_pos rfl]
  refine ⟨hmain, ?_, ?_, ?_⟩
  · rw [hmain]
  · rw [hmain]
  · intro prev hprev
    rw [hmain]
    dsimp only
    rw [getPageState]
    dsimp only
    rw [hprev]

/-- The session's pre-CAPTCHA model for the C9 scenario. -/
def c9Prev : SemanticPageModel := fallbackModel "https://x.com/p" 7

/-- A session holding a current model whose next refresh hits a CAPTCHA. -/
def c9State : ExecState :=
  { script := { urls := ["https://x.com/challenge"], captchas := [Except.ok true], htmls := [],
                trees := [], clicks := [], fills := [], navs := [], analyses := [] }
    memory := { site_knowledge := [("x.com", 3)], page_model_cache := [],
                selector_library := [], site_profiles := [] }
    pageModels := [("sess", c9Prev)], now := 123 }

/-- C9 (witness): the CAPTCHA short-circuit evaluated on the concrete
session; `getPageState` afterwards still yields the previous model. -/
theorem C9_captcha_refresh_no_store_write_witness :
    (c9State.script.urls = "https://x.com/challenge" :: [] ∧
     c9State.script.captchas = .ok true :: []) ∧
    (refreshModel c9State "sess" =
      (.ok (buildCaptchaModel "https://x.com/challenge" c9State.now),
       { c9State with script := { c9State.script with urls := [], captchas := [] } }) ∧
     (refreshModel c9State "sess").2.memory = c9State.memory ∧
     (refreshModel c9State "sess").2.pageModels = c9State.pageModels ∧
     ∀ prev, lookupModel c9State.pageModels "sess" = some prev →
       (getPageState (refreshModel c9State "sess").2 "sess").1 = .ok prev) :=
  ⟨⟨rfl, rfl⟩,
   C9_captcha_refresh_no_store_write c9State "sess" "https://x.com/challenge" [] []
     rfl rfl⟩
